import Mathlib

/-!
Verification model of the timeline-scheduling core of the time-to-table
application.  The imperative scheduler (`generateTable`), the lunch-window
adjustment loop, the chain-mode persistence, the checkbox propagation
handler and the spreadsheet formula emitter (`exportToExcel`) are embedded
as executable Lean definitions over exact arithmetic: instants are integer
milliseconds on a fixed-offset local clock, durations are rationals, and
spreadsheet values are rational day fractions.
-/

namespace TimeToTable

/-- JavaScript `ToIntegerOrInfinity` as applied by the `Date` constructor to
a (possibly fractional) millisecond count: truncation toward zero. -/
def jsTrunc (q : ℚ) : ℤ := if 0 ≤ q then ⌊q⌋ else ⌈q⌉

/-- `Number.parseFloat(x) || 0` wrapped in `Math.max(0, ·)` (the clamp the
scheduler applies to durations and pauses); `none` models a `NaN` parse. -/
def parseClamp0 (v : Option ℚ) : ℚ := max 0 (v.getD 0)

/-- `validateNumber(value, min, max)` from main.js lines 207–211: a `NaN`
parse returns the minimum, otherwise the value is clamped to `[lo, hi]`. -/
def validateNumber (v : Option ℤ) (lo hi : ℤ) : ℤ :=
  match v with
  | none => lo
  | some n => max lo (min hi n)

/-- Lunch-duration parsing (part_000 lines 1016–1018): `parseFloat || 0`,
then clamped between 0 and 480 minutes. -/
def lunchDurClamp (v : Option ℚ) : ℚ := max 0 (min 480 (v.getD 0))

/-- Unit normalization (part_000 line 1091): anything that is not `min` or
`hour` is treated as `min`. -/
def normalizeUnit (u : String) : String := if u = "min" ∨ u = "hour" then u else "min"

inductive TimeMode
  | total
  | per_worker
  | individual
deriving DecidableEq

/-- One user-entered operation block, with the raw (pre-clamp) field values:
`none` stands for a `NaN` numeric parse, and `checkbox w` is the state of the
worker-`w` checkbox of this block (`none` when no such checkbox exists). -/
structure OpInput where
  durRaw : Option ℚ
  unitRaw : String
  breakRaw : Option ℚ
  breakUnitRaw : Option String
  checkbox : ℕ → Option Bool

/-- Global run configuration after field parsing.  `dayIndex` is the start
date as a day count on a fixed-offset local clock (its midnight instant is
`86400000 * dayIndex` ms) and `startOffset` the start time of day in ms. -/
structure Config where
  dayIndex : ℤ
  startOffset : ℤ
  workerCountRaw : Option ℤ
  timeMode : TimeMode
  lunch1H : ℤ
  lunch1M : ℤ
  lunch2H : ℤ
  lunch2M : ℤ
  lunchDurRaw : Option ℚ
  chain : Bool

def msPerDay : ℤ := 86400000

def Config.dayStart (cfg : Config) : ℤ := msPerDay * cfg.dayIndex

def Config.startGlobal (cfg : Config) : ℤ := cfg.dayStart + cfg.startOffset

def Config.workerCount (cfg : Config) : ℤ := validateNumber cfg.workerCountRaw 1 10

def Config.lunchDurMin (cfg : Config) : ℚ := lunchDurClamp cfg.lunchDurRaw

structure LunchWindow where
  s : ℤ
  e : ℤ
deriving DecidableEq

/-- First lunch window (part_000 lines 1053–1054): start-of-day clock time
anchored on the start date, end = start + duration. -/
def Config.lunch1S (cfg : Config) : ℤ :=
  cfg.dayStart + (cfg.lunch1H * 60 + cfg.lunch1M) * 60000

def Config.lunch1E (cfg : Config) : ℤ :=
  jsTrunc ((cfg.lunch1S : ℚ) + cfg.lunchDurMin * 60000)

/-- Second lunch window (part_000 lines 1064–1070): if its start-of-day
instant is earlier than the run's start it is rolled to the next calendar
day, and only then is its end computed. -/
def Config.lunch2S (cfg : Config) : ℤ :=
  let t := cfg.dayStart + (cfg.lunch2H * 60 + cfg.lunch2M) * 60000
  if t < cfg.startGlobal then t + msPerDay else t

def Config.lunch2E (cfg : Config) : ℤ :=
  jsTrunc ((cfg.lunch2S : ℚ) + cfg.lunchDurMin * 60000)

def Config.window1 (cfg : Config) : LunchWindow := ⟨cfg.lunch1S, cfg.lunch1E⟩

def Config.window2 (cfg : Config) : LunchWindow := ⟨cfg.lunch2S, cfg.lunch2E⟩

/-- `[l1, l2].sort((a, b) => a.s - b.s)` — a stable two-element sort. -/
def sortLunches (l1 l2 : LunchWindow) : List LunchWindow :=
  if l2.s < l1.s then [l2, l1] else [l1, l2]

def Config.lunches (cfg : Config) : List LunchWindow :=
  sortLunches cfg.window1 cfg.window2

/-- One iteration of the lunch loop (part_000 lines 1130–1144) on the state
`(opStart, opEnd, crossedLunch)`: Rule A shifts a start lying inside the
window to the window end and recomputes the end from the duration; Rule B
then inflates an end that strictly spans the window start by the window's
length.  `Date` construction truncates the fractional milliseconds. -/
def applyLunchWindow (durCalc : ℚ) (st : ℤ × ℤ × Bool) (l : LunchWindow) : ℤ × ℤ × Bool :=
  let s1 := if l.s ≤ st.1 ∧ st.1 < l.e then
      (l.e, jsTrunc ((l.e : ℚ) + durCalc), true)
    else st
  if s1.1 < l.s ∧ l.s < s1.2.1 then
    (s1.1, s1.2.1 + (l.e - l.s), true)
  else s1

/-- The full per-operation lunch adjustment: both windows, in chronological
order, acting on the freshly computed interval. -/
def adjustLunches (cfg : Config) (start : ℤ) (durCalc : ℚ) : ℤ × ℤ × Bool :=
  cfg.lunches.foldl (applyLunchWindow durCalc)
    (start, jsTrunc ((start : ℚ) + durCalc), false)

/-- Raw duration of an operation in ms (part_000 lines 1089–1096). -/
def origDurationMs (op : OpInput) : ℚ :=
  if normalizeUnit op.unitRaw = "hour" then parseClamp0 op.durRaw * 3600000
  else parseClamp0 op.durRaw * 60000

/-- Duration used to advance the scheduling clock (part_000 lines 1099–1109):
`total` mode with more than one worker splits the raw duration, `individual`
mode zeroes it. -/
def durCalc (cfg : Config) (op : OpInput) : ℚ :=
  let base := if cfg.timeMode = TimeMode.total ∧ 1 < cfg.workerCount then
      origDurationMs op / cfg.workerCount
    else origDurationMs op
  if cfg.timeMode = TimeMode.individual then 0 else base

/-- Duration shown in the table and exported to the sheet (same lines):
split in `total` mode, kept at the raw value otherwise. -/
def displayDur (cfg : Config) (op : OpInput) : ℚ :=
  if cfg.timeMode = TimeMode.total ∧ 1 < cfg.workerCount then
    parseClamp0 op.durRaw / cfg.workerCount
  else parseClamp0 op.durRaw

/-- Pre-operation pause in seconds (part_000 lines 1112–1115). -/
def opBreakSec (op : OpInput) : ℚ :=
  if normalizeUnit (op.breakUnitRaw.getD "min") = "hour" then parseClamp0 op.breakRaw * 3600
  else parseClamp0 op.breakRaw * 60

/-- `Math.floor(opBreakSec * 1000)` (part_000 line 1116). -/
def origOpBreakMs (op : OpInput) : ℤ := ⌊opBreakSec op * 1000⌋

/-- Clock advance of the pause (part_000 line 1117): zero in `individual`
mode. -/
def opBreakMsForCalc (cfg : Config) (op : OpInput) : ℤ :=
  if cfg.timeMode = TimeMode.individual then 0 else origOpBreakMs op

/-- One emitted schedule row (the fields of the `dataMain.push` record at
part_000 lines 1161–1181 that the verified claims refer to). -/
structure Row where
  opNumeric : ℕ
  workerIndex : ℕ
  durVal : ℚ
  startMs : ℤ
  endMs : ℤ
  crossedLunch : Bool
  pauseExcel : ℚ
  unitIsHour : Bool
deriving DecidableEq

/-- Rows emitted for one operation (part_000 lines 1151–1182): workers are
visited in ascending order and a worker whose checkbox exists and is
unchecked is skipped. -/
def opRows (cfg : Config) (opIndex : ℕ) (op : OpInput) (opStart opEnd : ℤ)
    (crossed : Bool) : List Row :=
  (List.range cfg.workerCount.toNat).filterMap fun w0 =>
    let w := w0 + 1
    if op.checkbox w = some false then none
    else some
      { opNumeric := opIndex + 1
        workerIndex := w
        durVal := displayDur cfg op
        startMs := opStart
        endMs := opEnd
        crossedLunch := crossed
        pauseExcel := opBreakSec op / 86400
        unitIsHour := normalizeUnit op.unitRaw = "hour" }

/-- Processing of a single operation from clock value `gt` (part_000 lines
1084–1183): advance by the pause, compute the interval, adjust it for the
lunch windows, emit the rows, and leave the clock at the adjusted end. -/
def stepOp (cfg : Config) (gt : ℤ) (opIndex : ℕ) (op : OpInput) :
    ℤ × (ℤ × ℤ × Bool) × List Row :=
  let gt1 := gt + opBreakMsForCalc cfg op
  let adj := adjustLunches cfg gt1 (durCalc cfg op)
  (adj.2.1, adj, opRows cfg opIndex op adj.1 adj.2.1 adj.2.2)

/-- The per-operation interval `(start, end, crossedLunch)` the scheduler
computes when the running clock is `gt`. -/
def opTriple (cfg : Config) (gt : ℤ) (op : OpInput) : ℤ × ℤ × Bool :=
  (stepOp cfg gt 0 op).2.1

def runAux (cfg : Config) : ℤ → ℕ → List OpInput →
    ℤ × List (ℤ × ℤ × Bool) × List Row
  | gt, _, [] => (gt, [], [])
  | gt, i, op :: rest =>
    let s := stepOp cfg gt i op
    let r := runAux cfg s.1 (i + 1) rest
    (r.1, s.2.1 :: r.2.1, s.2.2 ++ r.2.2)

/-- Seed start instant persisted for the next run when chain mode is on
(part_000 lines 1186–1196): the final clock written back as local
`YYYY-MM-DD` + `HH:MM:SS` strings, which drops the milliseconds. -/
def chainSeed (t : ℤ) : ℤ := t - t % 1000

/-- Result of one full scheduling pass. -/
structure RunResult where
  rows : List Row
  intervals : List (ℤ × ℤ × Bool)
  finalClock : ℤ
  nextStartDefault : Option ℤ
deriving DecidableEq

/-- The scheduler core: a single pass over the ordered operation list with
one mutable clock, starting at the configured start instant. -/
def runSchedule (cfg : Config) (ops : List OpInput) : RunResult :=
  let r := runAux cfg cfg.startGlobal 0 ops
  { rows := r.2.2
    intervals := r.2.1
    finalClock := r.1
    nextStartDefault := if cfg.chain then some (chainSeed r.1) else none }

/-- The lunch configuration stored in a `HistoryEntry`
(part_000 line 1305: `{ h: lh, m: lm, h2: lh2, m2: lm2, dur: lunchDurMin }`). -/
structure LunchParams where
  h : ℤ
  m : ℤ
  h2 : ℤ
  m2 : ℤ
  dur : ℚ
deriving DecidableEq

/-- One persisted history entry, as replayed by the export
(`addToHistoryTable`, part_000 lines 1312–1326; the fields the formula
emitter reads). -/
structure HistoryEntry where
  rows : List Row
  lunch : LunchParams
  chain : Bool
  timeMode : TimeMode
deriving DecidableEq

def Config.lunchParams (cfg : Config) : LunchParams :=
  { h := cfg.lunch1H, m := cfg.lunch1M, h2 := cfg.lunch2H, m2 := cfg.lunch2M
    dur := cfg.lunchDurMin }

/-- The raw form field values `generateTable` starts from: `none` models an
empty or missing form value.  The start date is carried as its local day
index, the start time as `(hh, mm, ss?)` with `ss` defaulting to 0
(part_000 line 1036). -/
structure RawInputs where
  startDate : Option ℤ
  startTime : Option (ℤ × ℤ × Option ℤ)
  workerCountRaw : Option ℤ
  timeMode : TimeMode
  lunch1Raw : Option (ℤ × ℤ)
  lunch2Raw : Option (ℤ × ℤ)
  lunchDurRaw : Option ℚ
  chain : Bool

/-- Configuration built from present date/time fields: an invalid first
lunch time falls back to noon, an invalid second one to midnight
(part_000 lines 1047–1062). -/
def mkConfig (raw : RawInputs) (d : ℤ) (t : ℤ × ℤ × Option ℤ) : Config :=
  let l1 := raw.lunch1Raw.getD (12, 0)
  let l2 := raw.lunch2Raw.getD (0, 0)
  { dayIndex := d
    startOffset := (t.1 * 3600 + t.2.1 * 60 + t.2.2.getD 0) * 1000
    workerCountRaw := raw.workerCountRaw
    timeMode := raw.timeMode
    lunch1H := l1.1
    lunch1M := l1.2
    lunch2H := l2.1
    lunch2M := l2.2
    lunchDurRaw := raw.lunchDurRaw
    chain := raw.chain }

/-- The `generateTable` entry point (part_000 lines 1002–1309): a missing
start date or start time aborts the whole run before any row is produced
(lines 1025–1028), an empty operation list aborts silently (line 1073);
otherwise the scheduler runs and a history entry is appended. -/
def generateTable (raw : RawInputs) (ops : List OpInput) :
    Option (RunResult × HistoryEntry) :=
  match raw.startDate, raw.startTime with
  | some d, some t =>
    if ops.isEmpty then none
    else
      let cfg := mkConfig raw d t
      let res := runSchedule cfg ops
      some (res, { rows := res.rows, lunch := cfg.lunchParams, chain := cfg.chain
                   timeMode := cfg.timeMode })
  | _, _ => none

/-! ### Spreadsheet formula emitter (exportToExcel)

The emitted worksheet cells for start time, end time and the lunch icon are
formula strings over `TIME(...)` literals, `MOD(..., 1)` and relative cell
references.  Each evaluator below is the value-level meaning of one emitted
template, on rational day fractions, with the referenced cells passed in as
arguments. -/

/-- The spreadsheet `TIME(h, m, s)` literal as a day fraction. -/
def TIMEv (h m s : ℚ) : ℚ := (h * 3600 + m * 60 + s) / 86400

/-- Excel `MOD(x, 1)`. -/
def MOD1 (x : ℚ) : ℚ := x - ⌊x⌋

/-- Day fraction of an absolute instant of the model clock. -/
def dayFrac (t : ℤ) : ℚ := MOD1 ((t : ℚ) / (msPerDay : ℚ))

/-- `data.lunch.dur || 60` (part_000 line 1694): a zero stored lunch
duration is replaced by 60 in every emitted formula. -/
def ldOf (p : LunchParams) : ℚ := if p.dur = 0 then 60 else p.dur

/-- `!(lh2 === 0 && lm2 === 0)` (part_000 lines 1832/1863/1884/1910/1930):
a second lunch window stored as exactly 00:00 is treated as absent. -/
def hasLunch2 (p : LunchParams) : Bool := decide ¬(p.h2 = 0 ∧ p.m2 = 0)

def l1Val (p : LunchParams) : ℚ := TIMEv p.h p.m 0

def l1End (p : LunchParams) : ℚ := l1Val p + TIMEv 0 (ldOf p) 0

def l2Val (p : LunchParams) : ℚ := TIMEv p.h2 p.m2 0

def l2End (p : LunchParams) : ℚ := l2Val p + TIMEv 0 (ldOf p) 0

/-- The `unitDiv` divisor of the formulas (part_000 line 1757): hours are
day/24, minutes day/1440. -/
def unitDivOf (isHour : Bool) : ℚ := if isHour then 24 else 1440

/-- Chain-continuation start-time formula (part_000 lines 1828–1842):
`=MOD(IF(cond2, l2End, IF(cond1, l1End, prevEnd+pause)), 1)` with
`cond_i = AND(x >= l_iVal, x < l_iEnd)`; the second-lunch term is emitted
only when `hasLunch2`. -/
def chainStartFormulaEval (p : LunchParams) (prevEnd pause : ℚ) : ℚ :=
  let rawTimeRef := prevEnd + pause
  let cond1 := l1Val p ≤ rawTimeRef ∧ rawTimeRef < l1End p
  if hasLunch2 p then
    let shifted1 := if cond1 then l1End p else rawTimeRef
    let cond2 := l2Val p ≤ shifted1 ∧ shifted1 < l2End p
    MOD1 (if cond2 then l2End p else shifted1)
  else
    MOD1 (if cond1 then l1End p else rawTimeRef)

/-- Start-time formula of the first row of a new operation inside an entry
(part_000 lines 1903–1919): same template as the chain formula, with the
previous row's end time and this row's pause as the referenced cells. -/
def opStartFormulaEval (p : LunchParams) (prevEnd pause : ℚ) : ℚ :=
  let rawTimeWithPause := prevEnd + pause
  let cond1 := l1Val p ≤ rawTimeWithPause ∧ rawTimeWithPause < l1End p
  if hasLunch2 p then
    let shifted1 := if cond1 then l1End p else rawTimeWithPause
    let cond2 := l2Val p ≤ shifted1 ∧ shifted1 < l2End p
    MOD1 (if cond2 then l2End p else shifted1)
  else
    MOD1 (if cond1 then l1End p else rawTimeWithPause)

/-- End-time formula (part_000 lines 1960–1977): the lunch length is added
when the operation covers the window start with a one-second threshold
(`rawEnd > l1Val + TIME(0,0,1)`); the second-lunch term only when
`hasLunch2`. -/
def endFormulaEval (p : LunchParams) (unitDiv startV durV : ℚ) : ℚ :=
  let rawEnd := startV + durV / unitDiv
  let enC1 := startV < l1Val p ∧ l1Val p + TIMEv 0 0 1 < rawEnd
  let enShift1 := if enC1 then TIMEv 0 (ldOf p) 0 else 0
  if hasLunch2 p then
    let shiftedEnd := rawEnd + enShift1
    let enC2 := startV + enShift1 < l2Val p ∧ l2Val p + TIMEv 0 0 1 < shiftedEnd
    let enShift2 := if enC2 then TIMEv 0 (ldOf p) 0 else 0
    MOD1 (rawEnd + enShift1 + enShift2)
  else
    MOD1 (rawEnd + enShift1)

/-- Lunch-icon formula (part_000 lines 1934–1958), `true` when the 🍽️ icon
is shown: either the start sits within one second of the window end (it was
shifted there) or the interval covers the window start with the one-second
threshold; the second window is checked only when `hasLunch2`. -/
def iconFormulaEval (p : LunchParams) (unitDiv startV durV : ℚ) : Bool :=
  let icRawEnd := startV + durV / unitDiv
  let icWasShifted1 := |startV - l1End p| < TIMEv 0 0 1
  let icCovers1 := startV < l1Val p ∧ l1Val p + TIMEv 0 0 1 < icRawEnd
  let icC1 := icWasShifted1 ∨ icCovers1
  if hasLunch2 p then
    let icShift1 : ℚ := if icC1 then TIMEv 0 (ldOf p) 0 else 0
    let shiftedStart := startV + icShift1
    let shiftedEnd := icRawEnd + icShift1
    let icWasShifted2 := |shiftedStart - l2End p| < TIMEv 0 0 1
    let icCovers2 := shiftedStart < l2Val p ∧ l2Val p + TIMEv 0 0 1 < shiftedEnd
    decide (icC1 ∨ icWasShifted2 ∨ icCovers2)
  else
    decide icC1

/-- The export's stable re-sort of an entry's rows by operation number and
then worker index (part_000 lines 1734–1741), modelled as a stable
insertion sort under the corresponding total preorder. -/
def exportLe (a b : Row) : Prop :=
  a.opNumeric < b.opNumeric ∨ (a.opNumeric = b.opNumeric ∧ a.workerIndex ≤ b.workerIndex)

instance : DecidableRel exportLe := fun a b => by
  unfold exportLe
  infer_instance

def exportSort (rows : List Row) : List Row := List.insertionSort exportLe rows

/-! ### Worker checkbox propagation (UI event handlers)

Each operation block owns one checkbox per worker, initially checked
(part_000 line 811).  The change handler (lines 818–831) reacts to an
uncheck by unchecking the same worker on every later operation block;
checking a box affects only that box. -/

inductive CbEvent
  | set (op : ℕ) (w : ℕ) (checked : Bool)
deriving DecidableEq

/-- Effect of one user click on the checkbox grid `st : opIndex → worker →
checked`: an uncheck propagates forward to every operation with index ≥ the
clicked one, a check sets only the clicked box. -/
def applyCbEvent (st : ℕ → ℕ → Bool) : CbEvent → (ℕ → ℕ → Bool)
  | .set k w true => fun i w2 => if i = k ∧ w2 = w then true else st i w2
  | .set k w false => fun i w2 => if w2 = w ∧ k ≤ i then false else st i w2

/-- Checkbox grid after a sequence of user clicks, from the all-checked
initial state. -/
def runCbEvents (es : List CbEvent) : ℕ → ℕ → Bool :=
  es.foldl applyCbEvent fun _ _ => true

/-- Attach a checkbox grid to an operation list, numbering from `i`. -/
def attachCbStateFrom (st : ℕ → ℕ → Bool) : ℕ → List OpInput → List OpInput
  | _, [] => []
  | i, op :: rest =>
    { op with checkbox := fun w => some (st i w) } :: attachCbStateFrom st (i + 1) rest

/-- Attach a checkbox grid to an operation list: operation `i` reads its
worker-`w` box from `st i w`. -/
def attachCbState (ops : List OpInput) (st : ℕ → ℕ → Bool) : List OpInput :=
  attachCbStateFrom st 0 ops

/-! ### Export cell typing and sanitization

`excelSanitizeCell` (main.js lines 177–183) neutralizes strings that Excel
would read as formulas; the opIdx and worker cells of the export
(part_000 lines 1979–1989) are typed numeric when the label parses as a
finite number via JavaScript `Number(...)`. -/

/-- The apostrophe character prepended by the sanitizer. -/
def apos : String := String.singleton (Char.ofNat 39)

/-- `excelSanitizeCell` (main.js lines 177–183): an empty string stays
empty; a string whose first character is `=`, `+`, `-` or `@` gets a
leading apostrophe; anything else is returned unchanged. -/
def excelSanitizeCell (s : String) : String :=
  if s.length = 0 then ""
  else if s.get 0 ∈ ['=', '+', '-', '@'] then apos ++ s
  else s

/-- `String(x).replaceAll(&quot;&apos;&quot;, &quot;&quot;)` — all apostrophes removed before the
`Number(...)` conversion (part_000 lines 1980 and 1986). -/
def stripApos (s : String) : String :=
  ⟨s.toList.filter fun c => c.toNat ≠ 39⟩

def hexDigitVal (c : Char) : Option ℕ :=
  if c.isDigit then some (c.toNat - 48)
  else if 97 ≤ c.toNat ∧ c.toNat ≤ 102 then some (c.toNat - 87)
  else if 65 ≤ c.toNat ∧ c.toNat ≤ 70 then some (c.toNat - 55)
  else none

/-- Value of a non-empty digit run in the given base; `none` when empty or
when a character is no digit of the base. -/
def digitsVal (base : ℕ) (cs : List Char) : Option ℕ :=
  if cs.isEmpty then none
  else cs.foldl (fun acc c =>
    match acc, hexDigitVal c with
    | some a, some d => if d < base then some (a * base + d) else none
    | _, _ => none) (some 0)

/-- Optional exponent part of a decimal literal: empty input means exponent
0, otherwise `e`/`E`, an optional sign and a non-empty digit run. -/
def expPart (cs : List Char) : Option ℤ :=
  match cs with
  | [] => some 0
  | c :: rest =>
    if c = 'e' ∨ c = 'E' then
      match rest with
      | '+' :: ds => (digitsVal 10 ds).map fun n => (n : ℤ)
      | '-' :: ds => (digitsVal 10 ds).map fun n => -(n : ℤ)
      | ds => (digitsVal 10 ds).map fun n => (n : ℤ)
    else none

/-- Unsigned decimal literal `digits [. digits] [exp]` or `. digits [exp]`
(at least one digit overall), as an exact rational. -/
def decLit (cs : List Char) : Option ℚ :=
  let ip := cs.takeWhile Char.isDigit
  let rest := cs.dropWhile Char.isDigit
  let core : Option ℚ :=
    match rest with
    | '.' :: rest2 =>
      let fp := rest2.takeWhile Char.isDigit
      let rest3 := rest2.dropWhile Char.isDigit
      if ip.isEmpty ∧ fp.isEmpty then none
      else
        (expPart rest3).map fun e =>
          (((ip.foldl (fun a c => a * 10 + (c.toNat - 48)) 0 : ℕ) : ℚ) +
              ((fp.foldl (fun a c => a * 10 + (c.toNat - 48)) 0 : ℕ) : ℚ) /
                (10 : ℚ) ^ fp.length) * (10 : ℚ) ^ e
    | _ =>
      if ip.isEmpty then none
      else (expPart rest).map fun e =>
        ((ip.foldl (fun a c => a * 10 + (c.toNat - 48)) 0 : ℕ) : ℚ) * (10 : ℚ) ^ e
  core

def jsWhitespace (c : Char) : Bool :=
  c.toNat ∈ [32, 9, 10, 13, 11, 12, 160, 65279]

/-- JavaScript `Number(string)` restricted to finite results: `none` stands
for `NaN` or an infinity (exactly the strings rejected by the export's
`Number.isFinite` guards).  Whitespace is trimmed, the empty string is 0,
`0x`/`0o`/`0b` prefixes select an integer base, `Infinity` is non-finite,
and otherwise an optionally signed decimal literal is parsed exactly. -/
def jsNumber (s : String) : Option ℚ :=
  let cs := (s.toList.dropWhile jsWhitespace).reverse.dropWhile jsWhitespace |>.reverse
  match cs with
  | [] => some 0
  | '0' :: c :: rest =>
    if c = 'x' ∨ c = 'X' then (digitsVal 16 rest).map fun n => (n : ℚ)
    else if c = 'o' ∨ c = 'O' then (digitsVal 8 rest).map fun n => (n : ℚ)
    else if c = 'b' ∨ c = 'B' then (digitsVal 2 rest).map fun n => (n : ℚ)
    else if cs = "Infinity".toList then none
    else decLit cs
  | '+' :: rest =>
    if rest = "Infinity".toList then none else decLit rest
  | '-' :: rest =>
    if rest = "Infinity".toList then none else (decLit rest).map Neg.neg
  | _ =>
    if cs = "Infinity".toList then none else decLit cs

inductive CellData
  | number (q : ℚ)
  | text (s : String)
deriving DecidableEq

/-- The ПДТВ (operation-label) cell of an exported row (part_000 lines
1980–1983): numeric when `Number(label with apostrophes removed)` is
finite, otherwise a text cell whose content is the raw label — this
fallback does not pass through `excelSanitizeCell`. -/
def opIdxCell (s : String) : CellData :=
  match jsNumber (stripApos s) with
  | some q => CellData.number q
  | none => CellData.text s

/-- The worker cell of an exported row (part_000 lines 1985–1989): numeric
when the label is non-blank and parses finite, otherwise a sanitized text
cell. -/
def workerCell (s : String) : CellData :=
  if s.trim ≠ "" ∧ (jsNumber (stripApos s)).isSome then
    CellData.number ((jsNumber (stripApos s)).getD 0)
  else CellData.text (excelSanitizeCell s)

/-! ### Concrete scenario inputs used by the witnesses and counterexamples -/

/-- A one-worker operation block with the given raw duration in minutes and
no pause; every worker checkbox is present and checked. -/
def mkOpMin (d : ℚ) : OpInput :=
  { durRaw := some d, unitRaw := "min", breakRaw := some 0
    breakUnitRaw := some "min", checkbox := fun _ => some true }

/-- Run A of the chained-export scenario: start 08:00:00, one lunch window
at 12:00 of 60 minutes (second window left at the 00:00 sentinel), one
worker, chain mode on. -/
def cfgA : Config :=
  { dayIndex := 0, startOffset := 28800000, workerCountRaw := some 1
    timeMode := TimeMode.per_worker, lunch1H := 12, lunch1M := 0
    lunch2H := 0, lunch2M := 0, lunchDurRaw := some 60, chain := true }

/-- The operation of run A: 240.01 minutes, so that its raw end falls 0.6
seconds past the lunch-window start. -/
def opA : OpInput := mkOpMin (24001 / 100)

/-- Run B of the chained-export scenario: starts at run A's persisted end
13:00:00, same lunch configuration. -/
def cfgB : Config :=
  { dayIndex := 0, startOffset := 46800000, workerCountRaw := some 1
    timeMode := TimeMode.per_worker, lunch1H := 12, lunch1M := 0
    lunch2H := 0, lunch2M := 0, lunchDurRaw := some 60, chain := true }

def opB : OpInput := mkOpMin 60

/-- Lunch-boundary scenario: start 08:00:00, lunch `[08:30, 09:00)`. -/
def cfgC2 : Config :=
  { dayIndex := 0, startOffset := 28800000, workerCountRaw := some 1
    timeMode := TimeMode.per_worker, lunch1H := 8, lunch1M := 30
    lunch2H := 0, lunch2M := 0, lunchDurRaw := some 30, chain := false }

/-- Duration-resolver scenario: `total` mode, 4 workers, 40-minute
operation. -/
def cfgC4 : Config :=
  { dayIndex := 0, startOffset := 28800000, workerCountRaw := some 4
    timeMode := TimeMode.total, lunch1H := 12, lunch1M := 0
    lunch2H := 0, lunch2M := 0, lunchDurRaw := some 60, chain := false }

def opC4 : OpInput := mkOpMin 40

/-- Exclusion-propagation scenario: two workers, five operations. -/
def cfgC5 : Config :=
  { dayIndex := 0, startOffset := 28800000, workerCountRaw := some 2
    timeMode := TimeMode.individual, lunch1H := 12, lunch1M := 0
    lunch2H := 0, lunch2M := 0, lunchDurRaw := some 60, chain := false }

def opsC5 : List OpInput := List.replicate 5 (mkOpMin 10)

/-- Checkbox grid after unchecking worker 2 on operation 3 (index 2) and
re-checking worker 2 on operation 4 (index 3). -/
def stC5 : ℕ → ℕ → Bool :=
  runCbEvents [CbEvent.set 2 2 false, CbEvent.set 3 2 true]

/-- Chain-truncation scenario: chain mode, one 0.01-minute operation from
08:00:00, ending 600 ms past the second. -/
def cfgC6 : Config :=
  { dayIndex := 0, startOffset := 28800000, workerCountRaw := some 1
    timeMode := TimeMode.per_worker, lunch1H := 12, lunch1M := 0
    lunch2H := 0, lunch2M := 0, lunchDurRaw := some 60, chain := true }

def opC6 : OpInput := mkOpMin (1 / 100)

/-- Whole-second chain scenario: one 120-minute operation from 08:00:00,
ending exactly at 10:00:00. -/
def opC6b : OpInput := mkOpMin 120

/-- Valid raw inputs for the failure-semantics witness. -/
def rawC7 : RawInputs :=
  { startDate := some 0, startTime := some (8, 0, some 0)
    workerCountRaw := some 2, timeMode := TimeMode.per_worker
    lunch1Raw := some (12, 0), lunch2Raw := some (0, 0)
    lunchDurRaw := some 60, chain := false }

/-- The same raw inputs with the start time field left empty. -/
def rawC7missing : RawInputs :=
  { rawC7 with startTime := none }

/-- A non-numeric operation label beginning with a formula character. -/
def injStr : String := "=1+1"

/-- Midnight-crossing scenario for the second-lunch sentinel: start
23:00:00, second lunch stored as 00:00 (rolled to next-day midnight by the
scheduler), one 120-minute operation. -/
def cfgC10 : Config :=
  { dayIndex := 0, startOffset := 82800000, workerCountRaw := some 1
    timeMode := TimeMode.per_worker, lunch1H := 12, lunch1M := 0
    lunch2H := 0, lunch2M := 0, lunchDurRaw := some 60, chain := false }

def opC10 : OpInput := mkOpMin 120

/-- Clean-boundary scenario for the amended formula-equivalence claim: one
300-minute operation from 08:00:00 spanning the 12:00 lunch window. -/
def opC1w : OpInput := mkOpMin 300

/-! ## Supporting lemmas -/

theorem jsTrunc_intCast (n : ℤ) : jsTrunc (n : ℚ) = n := by
  unfold jsTrunc
  split <;> simp

theorem jsTrunc_mono {a b : ℚ} (h : a ≤ b) : jsTrunc a ≤ jsTrunc b := by
  unfold jsTrunc
  by_cases ha : 0 ≤ a
  · rw [if_pos ha, if_pos (le_trans ha h)]
    exact Int.floor_le_floor h
  · rw [if_neg ha]
    by_cases hb : 0 ≤ b
    · rw [if_pos hb]
      have h1 : (⌈a⌉ : ℤ) ≤ 0 := by
        have := Int.ceil_le_ceil (le_of_not_le ha : a ≤ 0)
        simpa using this
      have h2 : (0 : ℤ) ≤ ⌊b⌋ := Int.floor_nonneg.mpr hb
      omega
    · rw [if_neg hb]
      exact Int.ceil_le_ceil h

theorem le_jsTrunc_add (n : ℤ) {q : ℚ} (hq : 0 ≤ q) : n ≤ jsTrunc ((n : ℚ) + q) := by
  have := jsTrunc_mono (le_add_of_nonneg_right hq : (n : ℚ) ≤ n + q)
  rwa [jsTrunc_intCast] at this

theorem jsTrunc_eq_of_eq_int {q : ℚ} {n : ℤ} (h : q = (n : ℚ)) : jsTrunc q = n := by
  rw [h, jsTrunc_intCast]

theorem parseClamp0_nonneg (v : Option ℚ) : 0 ≤ parseClamp0 v := le_max_left 0 _

theorem workerCount_pos (cfg : Config) : 1 ≤ cfg.workerCount := by
  unfold Config.workerCount validateNumber
  cases cfg.workerCountRaw with
  | none => exact le_refl 1
  | some n => exact le_max_left 1 _

theorem origDurationMs_nonneg (op : OpInput) : 0 ≤ origDurationMs op := by
  have h := parseClamp0_nonneg op.durRaw
  unfold origDurationMs
  split <;> exact mul_nonneg h (by norm_num)

theorem durCalc_nonneg (cfg : Config) (op : OpInput) : 0 ≤ durCalc cfg op := by
  have h1 := origDurationMs_nonneg op
  have h3 : (0 : ℤ) ≤ cfg.workerCount := le_trans (by norm_num) (workerCount_pos cfg)
  have h2 : (0 : ℚ) ≤ (cfg.workerCount : ℚ) := Int.cast_nonneg.mpr h3
  by_cases hi : cfg.timeMode = TimeMode.individual
  · simp [durCalc, hi]
  · by_cases ht : cfg.timeMode = TimeMode.total ∧ 1 < cfg.workerCount
    · simpa [durCalc, hi, ht] using div_nonneg h1 h2
    · simpa [durCalc, hi, ht] using h1

theorem opBreakSec_nonneg (op : OpInput) : 0 ≤ opBreakSec op := by
  have h := parseClamp0_nonneg op.breakRaw
  unfold opBreakSec
  split <;> exact mul_nonneg h (by norm_num)

theorem origOpBreakMs_nonneg (op : OpInput) : 0 ≤ origOpBreakMs op := by
  unfold origOpBreakMs
  have h : (0 : ℚ) ≤ opBreakSec op * 1000 := by
    have := opBreakSec_nonneg op
    positivity
  exact Int.floor_nonneg.mpr h

theorem opBreakMsForCalc_nonneg (cfg : Config) (op : OpInput) :
    0 ≤ opBreakMsForCalc cfg op := by
  unfold opBreakMsForCalc
  split
  · exact le_refl 0
  · exact origOpBreakMs_nonneg op

theorem lunchDurMin_nonneg (cfg : Config) : 0 ≤ cfg.lunchDurMin := le_max_left 0 _

theorem window1_le (cfg : Config) : cfg.window1.s ≤ cfg.window1.e := by
  show cfg.lunch1S ≤ cfg.lunch1E
  unfold Config.lunch1E
  exact le_jsTrunc_add _ (by have := lunchDurMin_nonneg cfg; positivity)

theorem window2_le (cfg : Config) : cfg.window2.s ≤ cfg.window2.e := by
  show cfg.lunch2S ≤ cfg.lunch2E
  unfold Config.lunch2E
  exact le_jsTrunc_add _ (by have := lunchDurMin_nonneg cfg; positivity)

/-- A state whose `(j, w)` box is unchecked stays unchecked under any event
sequence that never checks exactly that box. -/
theorem cb_foldl_false (j w : ℕ) :
    ∀ (es : List CbEvent) (st : ℕ → ℕ → Bool), st j w = false →
      CbEvent.set j w true ∉ es → (es.foldl applyCbEvent st) j w = false := by
  intro es
  induction es with
  | nil => intro st h _; exact h
  | cons e rest ih =>
    intro st h hno
    rw [List.foldl_cons]
    refine ih _ ?_ (fun hmem => hno (List.mem_cons_of_mem _ hmem))
    cases e with
    | set k2 w2 b =>
      cases b with
      | true =>
        show (if j = k2 ∧ w = w2 then true else st j w) = false
        rw [if_neg, h]
        intro hcon
        exact hno (by rw [hcon.1, hcon.2]; exact List.mem_cons_self _ _)
      | false =>
        show (if w = w2 ∧ k2 ≤ j then false else st j w) = false
        split
        · rfl
        · exact h

/-- After an uncheck of worker `w` on operation `k`, the box of every
operation `j ≥ k` for that worker is unchecked, and stays so through any
later events that do not re-check that very box. -/
theorem runCbEvents_after_uncheck (es1 es2 : List CbEvent) (k j w : ℕ)
    (hkj : k ≤ j) (hno : CbEvent.set j w true ∉ es2) :
    runCbEvents (es1 ++ CbEvent.set k w false :: es2) j w = false := by
  unfold runCbEvents
  rw [List.foldl_append, List.foldl_cons]
  refine cb_foldl_false j w es2 _ ?_ hno
  show (if w = w ∧ k ≤ j then false else _) = false
  rw [if_pos ⟨rfl, hkj⟩]

/-- Shape of a row emitted for one operation: its ordinal, its copied
start/end/crossed values, its worker range, and the fact that its worker's
checkbox was not unchecked. -/
theorem mem_opRows {cfg : Config} {i : ℕ} {op : OpInput} {st en : ℤ}
    {cr : Bool} {r : Row} (hr : r ∈ opRows cfg i op st en cr) :
    r.opNumeric = i + 1 ∧ r.startMs = st ∧ r.endMs = en ∧
    r.crossedLunch = cr ∧ r.durVal = displayDur cfg op ∧
    1 ≤ r.workerIndex ∧ (r.workerIndex : ℤ) ≤ cfg.workerCount ∧
    op.checkbox r.workerIndex ≠ some false := by
  unfold opRows at hr
  rw [List.mem_filterMap] at hr
  obtain ⟨w0, hw0, hcb⟩ := hr
  rw [List.mem_range] at hw0
  by_cases hc : op.checkbox (w0 + 1) = some false
  · rw [if_pos hc] at hcb
    cases hcb
  · rw [if_neg hc] at hcb
    have hr2 := Option.some_injective _ hcb
    have hwc := workerCount_pos cfg
    have hle : (w0 + 1 : ℤ) ≤ cfg.workerCount := by
      have h1 : w0 + 1 ≤ cfg.workerCount.toNat := hw0
      omega
    rw [← hr2]
    refine ⟨rfl, rfl, rfl, rfl, rfl, ?_, ?_, ?_⟩
    · exact Nat.le_add_left 1 w0
    · exact_mod_cast hle
    · exact hc

/-- Every row the scheduler emits comes from some operation of the list,
carries that operation's ordinal, and its worker passed the checkbox
filter. -/
theorem mem_runAux_rows (cfg : Config) :
    ∀ (ops : List OpInput) (gt : ℤ) (i : ℕ) (r : Row),
      r ∈ (runAux cfg gt i ops).2.2 →
      ∃ n op, ops.get? n = some op ∧ r.opNumeric = i + n + 1 ∧
        op.checkbox r.workerIndex ≠ some false := by
  intro ops
  induction ops with
  | nil => intro gt i r hr; cases hr
  | cons op rest ih =>
    intro gt i r hr
    unfold runAux at hr
    rw [List.mem_append] at hr
    cases hr with
    | inl h =>
      obtain ⟨h1, _, _, _, _, _, _, h8⟩ := mem_opRows h
      exact ⟨0, op, rfl, by omega, h8⟩
    | inr h =>
      obtain ⟨n, op2, hget, hnum, hcb⟩ := ih _ _ r h
      exact ⟨n + 1, op2, hget, by omega, hcb⟩

/-- The operations produced by `attachCbStateFrom` read their checkboxes
from the grid at their own index. -/
theorem attachCbStateFrom_get (st : ℕ → ℕ → Bool) :
    ∀ (ops : List OpInput) (i n : ℕ) (op : OpInput),
      (attachCbStateFrom st i ops).get? n = some op →
      op.checkbox = fun w => some (st (i + n) w) := by
  intro ops
  induction ops with
  | nil => intro i n op h; cases h
  | cons op0 rest ih =>
    intro i n op h
    cases n with
    | zero =>
      have : { op0 with checkbox := fun w => some (st i w) } = op :=
        Option.some_injective _ h
      rw [← this]
      show (fun w => some (st i w)) = fun w => some (st (i + 0) w)
      rw [Nat.add_zero]
    | succ m =>
      have := ih (i + 1) m op h
      rw [this]
      have : i + 1 + m = i + (m + 1) := by omega
      rw [this]

/-- Rows of one operation are emitted in strictly ascending worker order. -/
theorem opRows_pairwise (cfg : Config) (i : ℕ) (op : OpInput) (st en : ℤ)
    (cr : Bool) :
    List.Pairwise (fun a b : Row => a.workerIndex < b.workerIndex)
      (opRows cfg i op st en cr) := by
  unfold opRows
  refine List.Pairwise.filterMap _ ?_ (List.pairwise_lt_range _)
  intro a a2 hlt b hb b2 hb2
  by_cases h1 : op.checkbox (a + 1) = some false
  · rw [if_pos h1] at hb
    cases hb
  · rw [if_neg h1] at hb
    by_cases h2 : op.checkbox (a2 + 1) = some false
    · rw [if_pos h2] at hb2
      cases hb2
    · rw [if_neg h2] at hb2
      rw [Option.mem_some_iff] at hb hb2
      rw [← hb, ← hb2]
      exact Nat.succ_lt_succ hlt

/-- Invariant of the scheduler's row list starting from ordinal `i`: every
ordinal is beyond `i`, rows of the same operation share their copied start
and end instants, and the list is strictly ordered by operation, then by
worker. -/
theorem runAux_rows_invariant (cfg : Config) :
    ∀ (ops : List OpInput) (gt : ℤ) (i : ℕ),
      (∀ r ∈ (runAux cfg gt i ops).2.2, i + 1 ≤ r.opNumeric) ∧
      (∀ r1 ∈ (runAux cfg gt i ops).2.2, ∀ r2 ∈ (runAux cfg gt i ops).2.2,
          r1.opNumeric = r2.opNumeric →
          r1.startMs = r2.startMs ∧ r1.endMs = r2.endMs) ∧
      List.Pairwise (fun a b : Row => a.opNumeric < b.opNumeric ∨
          (a.opNumeric = b.opNumeric ∧ a.workerIndex < b.workerIndex))
        (runAux cfg gt i ops).2.2 := by
  intro ops
  induction ops with
  | nil =>
    intro gt i
    refine ⟨fun r hr => ?_, fun r1 hr1 => ?_, List.Pairwise.nil⟩
    · cases hr
    · cases hr1
  | cons op rest ih =>
    intro gt i
    obtain ⟨ihLB, ihEq, ihPW⟩ := ih (stepOp cfg gt i op).1 (i + 1)
    have hsplit : (runAux cfg gt i (op :: rest)).2.2 =
        opRows cfg i op (stepOp cfg gt i op).2.1.1 (stepOp cfg gt i op).2.1.2.1
          (stepOp cfg gt i op).2.1.2.2 ++
        (runAux cfg (stepOp cfg gt i op).1 (i + 1) rest).2.2 := rfl
    rw [hsplit]
    refine ⟨?_, ?_, ?_⟩
    · intro r hr
      rw [List.mem_append] at hr
      cases hr with
      | inl h => exact le_of_eq (mem_opRows h).1.symm
      | inr h => exact le_trans (by omega) (ihLB r h)
    · intro r1 hr1 r2 hr2 hnum
      rw [List.mem_append] at hr1 hr2
      cases hr1 with
      | inl h1 =>
        cases hr2 with
        | inl h2 =>
          obtain ⟨_, hs1, he1, _⟩ := mem_opRows h1
          obtain ⟨_, hs2, he2, _⟩ := mem_opRows h2
          rw [hs1, he1, hs2, he2]
          exact ⟨rfl, rfl⟩
        | inr h2 =>
          have e1 := (mem_opRows h1).1
          have e2 := ihLB r2 h2
          omega
      | inr h1 =>
        cases hr2 with
        | inl h2 =>
          have e1 := (mem_opRows h2).1
          have e2 := ihLB r1 h1
          omega
        | inr h2 => exact ihEq r1 h1 r2 h2 hnum
    · rw [List.pairwise_append]
      refine ⟨?_, ihPW, ?_⟩
      · refine List.Pairwise.imp_of_mem ?_ (opRows_pairwise cfg i op _ _ _)
        intro a b ha hb hw
        exact Or.inr ⟨by rw [(mem_opRows ha).1, (mem_opRows hb).1], hw⟩
      · intro a ha b hb
        have e1 := (mem_opRows ha).1
        have e2 := ihLB b hb
        exact Or.inl (by omega)

/-- One lunch window applied to a freshly computed interval
`[s, s + dur)`: the start and end can only move forward, and afterwards the
state is either again of the fresh shape or untouched at a start strictly
before the window. -/
theorem applyLunchWindow_clean {d : ℚ} (hd : 0 ≤ d) {l : LunchWindow}
    (hl : l.s ≤ l.e) (s : ℤ) (c : Bool) :
    s ≤ (applyLunchWindow d (s, jsTrunc ((s : ℚ) + d), c) l).1 ∧
    jsTrunc ((s : ℚ) + d) ≤ (applyLunchWindow d (s, jsTrunc ((s : ℚ) + d), c) l).2.1 ∧
    ((applyLunchWindow d (s, jsTrunc ((s : ℚ) + d), c) l).2.1 =
        jsTrunc (((applyLunchWindow d (s, jsTrunc ((s : ℚ) + d), c) l).1 : ℚ) + d) ∨
      ((applyLunchWindow d (s, jsTrunc ((s : ℚ) + d), c) l).1 = s ∧ s < l.s)) := by
  unfold applyLunchWindow
  dsimp only
  by_cases hA : l.s ≤ s ∧ s < l.e
  · rw [if_pos hA]
    dsimp only
    rw [if_neg (fun hcon => absurd (lt_of_le_of_lt hl hcon.1) (lt_irrefl l.s))]
    refine ⟨le_of_lt hA.2, jsTrunc_mono ?_, Or.inl rfl⟩
    have : (s : ℚ) ≤ (l.e : ℚ) := Int.cast_le.mpr (le_of_lt hA.2)
    linarith
  · rw [if_neg hA]
    dsimp only
    by_cases hB : s < l.s ∧ l.s < jsTrunc ((s : ℚ) + d)
    · rw [if_pos hB]
      refine ⟨le_refl s, ?_, Or.inr ⟨rfl, hB.1⟩⟩
      show jsTrunc ((s : ℚ) + d) ≤ jsTrunc ((s : ℚ) + d) + (l.e - l.s)
      omega
    · rw [if_neg hB]
      exact ⟨le_refl s, le_refl _, Or.inl rfl⟩

/-- One lunch window applied to a state whose start lies strictly before
the window start: the start is untouched and the end can only grow. -/
theorem applyLunchWindow_dirty {d : ℚ} {l : LunchWindow} (hl : l.s ≤ l.e)
    {s e : ℤ} (c : Bool) (hs : s < l.s) :
    (applyLunchWindow d (s, e, c) l).1 = s ∧
    e ≤ (applyLunchWindow d (s, e, c) l).2.1 := by
  unfold applyLunchWindow
  dsimp only
  rw [if_neg (show ¬(l.s ≤ s ∧ s < l.e) from
    fun hcon => absurd hcon.1 (not_le.mpr hs))]
  dsimp only
  by_cases hB : s < l.s ∧ l.s < e
  · rw [if_pos hB]
    refine ⟨rfl, ?_⟩
    show e ≤ e + (l.e - l.s)
    omega
  · rw [if_neg hB]
    exact ⟨rfl, le_refl e⟩

/-- Both windows in chronological order: the adjusted start is never before
the raw start, the adjusted end never before the raw end, and the interval
stays well-ordered. -/
theorem foldl_two_windows_mono {d : ℚ} (hd : 0 ≤ d) (a b : LunchWindow)
    (ha : a.s ≤ a.e) (hb : b.s ≤ b.e) (hab : a.s ≤ b.s) (s : ℤ) :
    s ≤ (applyLunchWindow d (applyLunchWindow d (s, jsTrunc ((s : ℚ) + d), false) a) b).1 ∧
    jsTrunc ((s : ℚ) + d) ≤
      (applyLunchWindow d (applyLunchWindow d (s, jsTrunc ((s : ℚ) + d), false) a) b).2.1 ∧
    (applyLunchWindow d (applyLunchWindow d (s, jsTrunc ((s : ℚ) + d), false) a) b).1 ≤
      (applyLunchWindow d (applyLunchWindow d (s, jsTrunc ((s : ℚ) + d), false) a) b).2.1 := by
  obtain ⟨h1s, h1e, hcase⟩ := applyLunchWindow_clean hd ha s false
  set st1 := applyLunchWindow d (s, jsTrunc ((s : ℚ) + d), false) a with hst1
  cases hcase with
  | inl hclean =>
    have hrepr : st1 = (st1.1, jsTrunc ((st1.1 : ℚ) + d), st1.2.2) := by
      rw [← hclean]
    obtain ⟨h2s, h2e, hcase2⟩ := applyLunchWindow_clean hd hb st1.1 st1.2.2
    rw [← hrepr] at h2s h2e hcase2
    refine ⟨le_trans h1s h2s, ?_, ?_⟩
    · refine le_trans ?_ h2e
      exact jsTrunc_mono (by
        have : (s : ℚ) ≤ (st1.1 : ℚ) := Int.cast_le.mpr h1s
        linarith)
    · cases hcase2 with
      | inl hcl2 =>
        rw [hcl2]
        exact le_jsTrunc_add _ hd
      | inr hd2 =>
        rw [hd2.1]
        exact le_trans (le_jsTrunc_add _ hd) h2e
  | inr hdirty =>
    have hs2 : st1.1 < b.s := by
      rw [hdirty.1]
      exact lt_of_lt_of_le hdirty.2 hab
    have hsplit : (applyLunchWindow d st1 b).1 = st1.1 ∧
        st1.2.1 ≤ (applyLunchWindow d st1 b).2.1 :=
      applyLunchWindow_dirty (s := st1.1) (e := st1.2.1) hb st1.2.2 hs2
    refine ⟨?_, ?_, ?_⟩
    · rw [hsplit.1, hdirty.1]
    · exact le_trans h1e hsplit.2
    · rw [hsplit.1, hdirty.1]
      exact le_trans (le_jsTrunc_add s hd) (le_trans h1e hsplit.2)

/-- The full per-operation lunch adjustment only moves the interval
forward. -/
theorem adjustLunches_mono (cfg : Config) (start : ℤ) {d : ℚ} (hd : 0 ≤ d) :
    start ≤ (adjustLunches cfg start d).1 ∧
    jsTrunc ((start : ℚ) + d) ≤ (adjustLunches cfg start d).2.1 ∧
    (adjustLunches cfg start d).1 ≤ (adjustLunches cfg start d).2.1 := by
  have h1 := window1_le cfg
  have h2 := window2_le cfg
  unfold adjustLunches Config.lunches sortLunches
  by_cases hlt : cfg.window2.s < cfg.window1.s
  · rw [if_pos hlt]
    simpa using foldl_two_windows_mono hd cfg.window2 cfg.window1 h2 h1
      (le_of_lt hlt) start
  · rw [if_neg hlt]
    simpa using foldl_two_windows_mono hd cfg.window1 cfg.window2 h1 h2
      (not_lt.mp hlt) start

/-- Every interval the scheduler computes respects the clock: it is
well-ordered, starts no earlier than the incoming clock, and consecutive
intervals never overlap backwards. -/
theorem runAux_intervals_invariant (cfg : Config) :
    ∀ (ops : List OpInput) (gt : ℤ) (i : ℕ),
      (∀ t ∈ (runAux cfg gt i ops).2.1, t.1 ≤ t.2.1 ∧ gt ≤ t.1) ∧
      List.Chain' (fun a b : ℤ × ℤ × Bool => a.2.1 ≤ b.1)
        (runAux cfg gt i ops).2.1 := by
  intro ops
  induction ops with
  | nil =>
    intro gt i
    refine ⟨fun t ht => ?_, List.chain'_nil⟩
    cases ht
  | cons op rest ih =>
    intro gt i
    have hbk := opBreakMsForCalc_nonneg cfg op
    have hmono := adjustLunches_mono cfg (gt + opBreakMsForCalc cfg op)
      (durCalc_nonneg cfg op)
    have htri : (stepOp cfg gt i op).2.1 =
        adjustLunches cfg (gt + opBreakMsForCalc cfg op) (durCalc cfg op) := rfl
    have hnext : (stepOp cfg gt i op).1 =
        (adjustLunches cfg (gt + opBreakMsForCalc cfg op) (durCalc cfg op)).2.1 := rfl
    have hsplit : (runAux cfg gt i (op :: rest)).2.1 =
        (stepOp cfg gt i op).2.1 ::
          (runAux cfg (stepOp cfg gt i op).1 (i + 1) rest).2.1 := rfl
    obtain ⟨ihB, ihC⟩ := ih (stepOp cfg gt i op).1 (i + 1)
    rw [hsplit]
    have hstart : gt ≤ (stepOp cfg gt i op).2.1.1 := by
      rw [htri]
      exact le_trans (by omega) hmono.1
    have hord : (stepOp cfg gt i op).2.1.1 ≤ (stepOp cfg gt i op).2.1.2.1 := by
      rw [htri]
      exact hmono.2.2
    constructor
    · intro t ht
      cases ht with
      | head => exact ⟨hord, hstart⟩
      | tail _ hmem =>
        obtain ⟨hle, hlb⟩ := ihB t hmem
        exact ⟨hle, le_trans hstart (le_trans hord hlb)⟩
    · refine List.Chain'.cons' ihC ?_
      intro y hy
      have hmem := List.mem_of_mem_head? hy
      exact (ihB y hmem).2

/-- Every emitted row's start is no later than its end. -/
theorem runAux_rows_wellordered (cfg : Config) :
    ∀ (ops : List OpInput) (gt : ℤ) (i : ℕ),
      ∀ r ∈ (runAux cfg gt i ops).2.2, r.startMs ≤ r.endMs := by
  intro ops
  induction ops with
  | nil => intro gt i r hr; cases hr
  | cons op rest ih =>
    intro gt i r hr
    have hsplit : (runAux cfg gt i (op :: rest)).2.2 =
        opRows cfg i op (stepOp cfg gt i op).2.1.1 (stepOp cfg gt i op).2.1.2.1
          (stepOp cfg gt i op).2.1.2.2 ++
        (runAux cfg (stepOp cfg gt i op).1 (i + 1) rest).2.2 := rfl
    rw [hsplit, List.mem_append] at hr
    cases hr with
    | inl h =>
      obtain ⟨_, hs, he, _⟩ := mem_opRows h
      rw [hs, he]
      exact (adjustLunches_mono cfg (gt + opBreakMsForCalc cfg op)
        (durCalc_nonneg cfg op)).2.2
    | inr h => exact ih _ _ r h

/-- Rule A of the lunch loop in isolation. -/
theorem applyLunchWindow_ruleA {d : ℚ} {s e : ℤ} {c : Bool} {l : LunchWindow}
    (hl : l.s ≤ l.e) (h1 : l.s ≤ s) (h2 : s < l.e) :
    applyLunchWindow d (s, e, c) l = (l.e, jsTrunc ((l.e : ℚ) + d), true) := by
  unfold applyLunchWindow
  dsimp only
  rw [if_pos (show l.s ≤ s ∧ s < l.e from ⟨h1, h2⟩)]
  dsimp only
  rw [if_neg]
  intro hcon
  exact absurd (lt_of_le_of_lt hl hcon.1) (lt_irrefl l.s)

/-- Rule B of the lunch loop in isolation. -/
theorem applyLunchWindow_ruleB {d : ℚ} {s e : ℤ} {c : Bool} {l : LunchWindow}
    (h1 : s < l.s) (h2 : l.s < e) :
    applyLunchWindow d (s, e, c) l = (s, e + (l.e - l.s), true) := by
  unfold applyLunchWindow
  dsimp only
  rw [if_neg (show ¬(l.s ≤ s ∧ s < l.e) from
    fun hcon => absurd hcon.1 (not_le.mpr h1))]
  dsimp only
  rw [if_pos (show s < l.s ∧ l.s < e from ⟨h1, h2⟩)]

/-- A window that triggers neither rule leaves the state untouched. -/
theorem applyLunchWindow_skip {d : ℚ} {s e : ℤ} {c : Bool} {l : LunchWindow}
    (hA : ¬(l.s ≤ s ∧ s < l.e)) (hB : ¬(s < l.s ∧ l.s < e)) :
    applyLunchWindow d (s, e, c) l = (s, e, c) := by
  unfold applyLunchWindow
  dsimp only
  rw [if_neg hA]
  dsimp only
  rw [if_neg hB]

theorem MOD1_eq_self {x : ℚ} (h0 : 0 ≤ x) (h1 : x < 1) : MOD1 x = x := by
  unfold MOD1
  rw [Int.floor_eq_zero_iff.mpr ⟨h0, h1⟩]
  simp

theorem dayDiv_lt {a b : ℤ} : (a : ℚ) / 86400000 < (b : ℚ) / 86400000 ↔ a < b := by
  rw [div_lt_div_right (by norm_num : (0 : ℚ) < 86400000)]
  exact Int.cast_lt

theorem dayDiv_le {a b : ℤ} : (a : ℚ) / 86400000 ≤ (b : ℚ) / 86400000 ↔ a ≤ b := by
  rw [div_le_div_right (by norm_num : (0 : ℚ) < 86400000)]
  exact Int.cast_le

theorem dayDiv_abs_lt {a b c : ℤ} :
    |(a : ℚ) / 86400000 - (b : ℚ) / 86400000| < (c : ℚ) / 86400000 ↔ |a - b| < c := by
  rw [div_sub_div_same, abs_div, abs_of_pos (by norm_num : (0 : ℚ) < 86400000),
    div_lt_div_right (by norm_num : (0 : ℚ) < 86400000), ← Int.cast_sub,
    ← Int.cast_abs]
  exact Int.cast_lt

/-- A day fraction of an instant inside the start day is its offset from
midnight, as a fraction of the day. -/
theorem dayFrac_eq (cfg : Config) (t : ℤ) (h1 : cfg.dayStart ≤ t)
    (h2 : t < cfg.dayStart + msPerDay) :
    dayFrac t = ((t - cfg.dayStart : ℤ) : ℚ) / 86400000 := by
  have hds : cfg.dayStart = 86400000 * cfg.dayIndex := rfl
  have hmp : msPerDay = 86400000 := rfl
  rw [hds] at h1 h2 ⊢
  rw [hmp] at h2
  have hD : (0 : ℚ) < 86400000 := by norm_num
  have hfl : ⌊(t : ℚ) / 86400000⌋ = cfg.dayIndex := by
    rw [Int.floor_eq_iff]
    constructor
    · rw [le_div_iff hD]
      exact_mod_cast by linarith [h1]
    · rw [div_lt_iff hD]
      have : (t : ℚ) < ((86400000 * cfg.dayIndex + 86400000 : ℤ) : ℚ) :=
        Int.cast_lt.mpr (by linarith [h2])
      push_cast at this ⊢
      linarith
  unfold dayFrac MOD1
  have hm : ((msPerDay : ℤ) : ℚ) = 86400000 := by norm_num [msPerDay]
  rw [hm, hfl]
  push_cast
  ring

/-- In the non-`individual` modes the exported display duration divided by
the formula's unit divisor is exactly the scheduling duration as a day
fraction. -/
theorem displayDur_div_unitDiv (cfg : Config) (op : OpInput)
    (hmode : cfg.timeMode ≠ TimeMode.individual) :
    displayDur cfg op / unitDivOf (decide (normalizeUnit op.unitRaw = "hour"))
      = durCalc cfg op / 86400000 := by
  by_cases hu : normalizeUnit op.unitRaw = "hour" <;>
    by_cases ht : cfg.timeMode = TimeMode.total ∧ 1 < cfg.workerCount <;>
      · simp [displayDur, durCalc, origDurationMs, unitDivOf, hu, ht, hmode]
        ring

/-- The chain-continuation start formula and the new-operation start
formula are the same template. -/
theorem chainStart_eq_opStart (p : LunchParams) (x y : ℚ) :
    chainStartFormulaEval p x y = opStartFormulaEval p x y := rfl

theorem dayDiv_add (a b : ℤ) :
    (a : ℚ) / 86400000 + (b : ℚ) / 86400000 = ((a + b : ℤ) : ℚ) / 86400000 := by
  push_cast
  ring

/-- Closed form of the per-operation interval when the second lunch window
sits at the 00:00 sentinel (rolled past the whole schedule) and every
quantity is whole milliseconds inside the start day: only the first lunch
window acts, by Rule A or Rule B or not at all. -/
theorem opTriple_single_window (cfg : Config) (op : OpInput) (gt : ℤ)
    (hmode : cfg.timeMode ≠ TimeMode.individual)
    (h2H : cfg.lunch2H = 0) (h2M : cfg.lunch2M = 0) (hoff : 0 < cfg.startOffset)
    (lk dm bs : ℤ)
    (hlk : cfg.lunchDurMin * 60000 = (lk : ℚ))
    (hdm : durCalc cfg op = (dm : ℚ))
    (hbs : opBreakSec op * 1000 = (bs : ℚ))
    (hgt : cfg.dayStart ≤ gt)
    (hday1 : gt + bs + dm + lk < cfg.dayStart + msPerDay)
    (hday2 : cfg.lunch1S + lk + dm < cfg.dayStart + msPerDay) :
    opTriple cfg gt op =
      if cfg.lunch1S ≤ gt + bs ∧ gt + bs < cfg.lunch1S + lk then
        (cfg.lunch1S + lk, cfg.lunch1S + lk + dm, true)
      else if gt + bs < cfg.lunch1S ∧ cfg.lunch1S < gt + bs + dm then
        (gt + bs, gt + bs + dm + lk, true)
      else (gt + bs, gt + bs + dm, false) := by
  have hlk0 : (0 : ℤ) ≤ lk := by
    have h : (0 : ℚ) ≤ (lk : ℚ) := by
      rw [← hlk]
      have := lunchDurMin_nonneg cfg
      positivity
    exact_mod_cast h
  have hdm0 : (0 : ℤ) ≤ dm := by
    have h : (0 : ℚ) ≤ (dm : ℚ) := by
      rw [← hdm]
      exact durCalc_nonneg cfg op
    exact_mod_cast h
  have hbs0 : (0 : ℤ) ≤ bs := by
    have h : (0 : ℚ) ≤ (bs : ℚ) := by
      rw [← hbs]
      have := opBreakSec_nonneg op
      positivity
    exact_mod_cast h
  have hbkEq : opBreakMsForCalc cfg op = bs := by
    unfold opBreakMsForCalc origOpBreakMs
    rw [if_neg hmode, hbs, Int.floor_intCast]
  have hE1 : cfg.lunch1E = cfg.lunch1S + lk := by
    unfold Config.lunch1E
    refine jsTrunc_eq_of_eq_int ?_
    rw [hlk]
    push_cast
    ring
  have hS2 : cfg.lunch2S = cfg.dayStart + msPerDay := by
    unfold Config.lunch2S
    rw [h2H, h2M]
    simp only [Config.startGlobal]
    rw [if_pos (by omega)]
    ring
  have hE2 : cfg.lunch2E = cfg.dayStart + msPerDay + lk := by
    unfold Config.lunch2E
    refine jsTrunc_eq_of_eq_int ?_
    rw [hS2, hlk]
    push_cast
    ring
  have hsort : cfg.lunches = [cfg.window1, cfg.window2] := by
    unfold Config.lunches sortLunches
    rw [if_neg]
    show ¬cfg.lunch2S < cfg.lunch1S
    rw [hS2]
    omega
  have hw1l : cfg.window1.s ≤ cfg.window1.e := window1_le cfg
  have htri : opTriple cfg gt op =
      adjustLunches cfg (gt + opBreakMsForCalc cfg op) (durCalc cfg op) := rfl
  rw [htri, hbkEq]
  unfold adjustLunches
  rw [hsort]
  rw [List.foldl_cons, List.foldl_cons, List.foldl_nil]
  have hinit : jsTrunc (((gt + bs : ℤ) : ℚ) + durCalc cfg op) = gt + bs + dm := by
    refine jsTrunc_eq_of_eq_int ?_
    rw [hdm]
    push_cast
    ring
  rw [hinit]
  have hw1s : cfg.window1.s = cfg.lunch1S := rfl
  have hw1e : cfg.window1.e = cfg.lunch1S + lk := hE1
  have hw2s : cfg.window2.s = cfg.dayStart + msPerDay := hS2
  have hw2e : cfg.window2.e = cfg.dayStart + msPerDay + lk := hE2
  by_cases hA : cfg.lunch1S ≤ gt + bs ∧ gt + bs < cfg.lunch1S + lk
  · rw [if_pos hA]
    rw [applyLunchWindow_ruleA hw1l (by rw [hw1s]; exact hA.1)
      (by rw [hw1e]; exact hA.2)]
    have hend1 : jsTrunc ((cfg.window1.e : ℚ) + durCalc cfg op) =
        cfg.lunch1S + lk + dm := by
      refine jsTrunc_eq_of_eq_int ?_
      rw [hdm, hw1e]
      push_cast
      ring
    rw [hend1, hw1e]
    refine applyLunchWindow_skip ?_ ?_
    · intro hcon
      rw [hw2s] at hcon
      omega
    · intro hcon
      rw [hw2s] at hcon
      omega
  · rw [if_neg hA]
    by_cases hB : gt + bs < cfg.lunch1S ∧ cfg.lunch1S < gt + bs + dm
    · rw [if_pos hB]
      rw [applyLunchWindow_ruleB (l := cfg.window1) (c := false)
        (by rw [hw1s]; exact hB.1) (by rw [hw1s]; exact hB.2)]
      have hdiff : gt + bs + dm + (cfg.window1.e - cfg.window1.s) =
          gt + bs + dm + lk := by
        rw [hw1e, hw1s]
        ring
      rw [hdiff]
      refine applyLunchWindow_skip ?_ ?_
      · intro hcon
        rw [hw2s] at hcon
        omega
      · intro hcon
        rw [hw2s] at hcon
        omega
    · rw [if_neg hB]
      rw [applyLunchWindow_skip (l := cfg.window1) (c := false)
        (by rw [hw1s, hw1e]; exact fun hcon => hA hcon)
        (by rw [hw1s]; exact fun hcon => hB ⟨hcon.1, by omega⟩)]
      refine applyLunchWindow_skip ?_ ?_
      · intro hcon
        rw [hw2s] at hcon
        omega
      · intro hcon
        rw [hw2s] at hcon
        omega

/-- With the second lunch window at the 00:00 sentinel the emitted start
formula reduces to its single-window form. -/
theorem startFormula_noLunch2 (p : LunchParams) (x y : ℚ)
    (h : hasLunch2 p = false) :
    opStartFormulaEval p x y =
      MOD1 (if l1Val p ≤ x + y ∧ x + y < l1End p then l1End p else x + y) := by
  simp [opStartFormulaEval, h]

/-- Single-window form of the emitted end formula. -/
theorem endFormula_noLunch2 (p : LunchParams) (u sv dv : ℚ)
    (h : hasLunch2 p = false) :
    endFormulaEval p u sv dv =
      MOD1 (sv + dv / u +
        if sv < l1Val p ∧ l1Val p + TIMEv 0 0 1 < sv + dv / u
        then TIMEv 0 (ldOf p) 0 else 0) := by
  simp [endFormulaEval, h]

/-- Single-window form of the emitted lunch-icon formula. -/
theorem iconFormula_noLunch2 (p : LunchParams) (u sv dv : ℚ)
    (h : hasLunch2 p = false) :
    iconFormulaEval p u sv dv =
      decide (|sv - l1End p| < TIMEv 0 0 1 ∨
        (sv < l1Val p ∧ l1Val p + TIMEv 0 0 1 < sv + dv / u)) := by
  simp [iconFormulaEval, h]

/-- The day fraction of the in-day offset of an instant is already in
`[0, 1)`, so `MOD(..., 1)` leaves it unchanged and it equals the instant's
day fraction. -/
theorem MOD1_dayDiv (cfg : Config) (t : ℤ) (h1 : cfg.dayStart ≤ t)
    (h2 : t < cfg.dayStart + msPerDay) :
    MOD1 (((t - cfg.dayStart : ℤ) : ℚ) / 86400000) = dayFrac t := by
  have hms : msPerDay = 86400000 := rfl
  rw [ MOD1_eq_self, dayFrac_eq cfg t h1 h2]
  · exact div_nonneg (Int.cast_nonneg.mpr (by omega)) (by norm_num)
  · rw [div_lt_one (by norm_num : (0 : ℚ) < 86400000)]
    exact_mod_cast (show t - cfg.dayStart < 86400000 by omega)

/-! ## Claim theorems -/

/-- C4: the duration resolver maps each distribution mode as specified —
in `total` mode with more than one worker both the scheduling duration and
the display duration are the raw duration divided by the worker count (the
scheduling value being the display value expressed in milliseconds); in
`per_worker` mode both equal the raw duration; in `individual` mode the
scheduling duration and the pause's clock advance are zero while the
display duration keeps the raw value. -/
theorem C4_duration_resolver (cfg : Config) (op : OpInput) :
    (cfg.timeMode = TimeMode.total → 1 < cfg.workerCount →
      displayDur cfg op = parseClamp0 op.durRaw / (cfg.workerCount : ℚ) ∧
      durCalc cfg op = origDurationMs op / (cfg.workerCount : ℚ) ∧
      durCalc cfg op = displayDur cfg op *
        (if normalizeUnit op.unitRaw = "hour" then 3600000 else 60000)) ∧
    (cfg.timeMode = TimeMode.per_worker →
      displayDur cfg op = parseClamp0 op.durRaw ∧
      durCalc cfg op = origDurationMs op ∧
      durCalc cfg op = displayDur cfg op *
        (if normalizeUnit op.unitRaw = "hour" then 3600000 else 60000)) ∧
    (cfg.timeMode = TimeMode.individual →
      durCalc cfg op = 0 ∧ opBreakMsForCalc cfg op = 0 ∧
      displayDur cfg op = parseClamp0 op.durRaw) := by
  refine ⟨fun ht hw => ?_, fun hp => ?_, fun hi => ?_⟩
  · refine ⟨by simp [displayDur, ht, hw], by simp [durCalc, ht, hw], ?_⟩
    by_cases hu : normalizeUnit op.unitRaw = "hour" <;>
      · simp [durCalc, displayDur, origDurationMs, ht, hw, hu]
        ring
  · refine ⟨by simp [displayDur, hp], by simp [durCalc, hp], ?_⟩
    by_cases hu : normalizeUnit op.unitRaw = "hour" <;>
      simp [durCalc, displayDur, origDurationMs, hp, hu]
  · exact ⟨by simp [durCalc, hi], by simp [opBreakMsForCalc, hi],
      by simp [displayDur, hi]⟩

/-- C4 witness: the `total`-mode branch at 4 workers and a 40-minute
operation. -/
theorem C4_duration_resolver_witness :
    cfgC4.timeMode = TimeMode.total ∧ 1 < cfgC4.workerCount ∧
    (displayDur cfgC4 opC4 = parseClamp0 opC4.durRaw / (cfgC4.workerCount : ℚ) ∧
      durCalc cfgC4 opC4 = origDurationMs opC4 / (cfgC4.workerCount : ℚ) ∧
      durCalc cfgC4 opC4 = displayDur cfgC4 opC4 *
        (if normalizeUnit opC4.unitRaw = "hour" then 3600000 else 60000)) :=
  ⟨rfl, by decide, (C4_duration_resolver cfgC4 opC4).1 rfl (by decide)⟩

/-- C6 (amended): with chain mode on, the persisted seed for the next run
is the final clock value truncated to whole seconds (the `HH:MM:SS` write
drops milliseconds); it equals the final end instant exactly whenever that
instant lies on a whole second. -/
theorem C6_chain_continuation (cfg : Config) (ops : List OpInput)
    (h : cfg.chain = true) :
    (runSchedule cfg ops).nextStartDefault =
      some (chainSeed ((runSchedule cfg ops).finalClock)) ∧
    ((runSchedule cfg ops).finalClock % 1000 = 0 →
      (runSchedule cfg ops).nextStartDefault =
        some ((runSchedule cfg ops).finalClock)) := by
  have h1 : (runSchedule cfg ops).nextStartDefault
      = some (chainSeed ((runSchedule cfg ops).finalClock)) := by
    simp [runSchedule, h]
  refine ⟨h1, fun hz => ?_⟩
  rw [h1]
  congr 1
  unfold chainSeed
  omega

/-- C6 witness: a chained run that ends exactly at 10:00:00 is continued at
exactly 10:00:00. -/
theorem C6_chain_continuation_witness :
    cfgC6.chain = true ∧
    (runSchedule cfgC6 [opC6b]).finalClock % 1000 = 0 ∧
    (runSchedule cfgC6 [opC6b]).nextStartDefault =
      some ((runSchedule cfgC6 [opC6b]).finalClock) := by
  have hfc : (runSchedule cfgC6 [opC6b]).finalClock = 36000000 := by
    simp [runSchedule, runAux, stepOp, adjustLunches, applyLunchWindow, opRows,
      Config.lunches, sortLunches, Config.window1, Config.window2, Config.lunch1S,
      Config.lunch1E, Config.lunch2S, Config.lunch2E, Config.startGlobal,
      Config.dayStart, Config.lunchDurMin, Config.workerCount, lunchDurClamp,
      validateNumber, durCalc, displayDur, origDurationMs, parseClamp0,
      normalizeUnit, opBreakSec, origOpBreakMs, opBreakMsForCalc, jsTrunc,
      msPerDay, mkOpMin, cfgC6, opC6b, max_def, min_def]
    norm_num
  exact ⟨rfl, by rw [hfc]; norm_num,
    (C6_chain_continuation cfgC6 [opC6b] rfl).2 (by rw [hfc]; norm_num)⟩

/-- C6 counterexample: a chained run ending 600 ms past the second
(duration 0.01 min from 08:00:00) is continued at 08:00:00, not at its
actual end instant 08:00:00.600. -/
theorem C6_counterexample :
    cfgC6.chain = true ∧
    (runSchedule cfgC6 [opC6]).finalClock = 28800600 ∧
    (runSchedule cfgC6 [opC6]).nextStartDefault = some 28800000 ∧
    (runSchedule cfgC6 [opC6]).nextStartDefault ≠
      some ((runSchedule cfgC6 [opC6]).finalClock) := by
  have h1 : (runSchedule cfgC6 [opC6]).finalClock = 28800600 := by
    simp [runSchedule, runAux, stepOp, adjustLunches, applyLunchWindow, opRows,
      Config.lunches, sortLunches, Config.window1, Config.window2, Config.lunch1S,
      Config.lunch1E, Config.lunch2S, Config.lunch2E, Config.startGlobal,
      Config.dayStart, Config.lunchDurMin, Config.workerCount, lunchDurClamp,
      validateNumber, durCalc, displayDur, origDurationMs, parseClamp0,
      normalizeUnit, opBreakSec, origOpBreakMs, opBreakMsForCalc, jsTrunc,
      msPerDay, mkOpMin, cfgC6, opC6, max_def, min_def]
    norm_num
  have h2 : (runSchedule cfgC6 [opC6]).nextStartDefault = some 28800000 := by
    simp [runSchedule, runAux, stepOp, adjustLunches, applyLunchWindow, opRows,
      Config.lunches, sortLunches, Config.window1, Config.window2, Config.lunch1S,
      Config.lunch1E, Config.lunch2S, Config.lunch2E, Config.startGlobal,
      Config.dayStart, Config.lunchDurMin, Config.workerCount, lunchDurClamp,
      validateNumber, durCalc, displayDur, origDurationMs, parseClamp0,
      normalizeUnit, opBreakSec, origOpBreakMs, opBreakMsForCalc, jsTrunc,
      msPerDay, chainSeed, mkOpMin, cfgC6, opC6, max_def, min_def]
    norm_num
  refine ⟨rfl, h1, h2, ?_⟩
  rw [h1, h2]
  simp

/-- C7: a missing start date or start time makes `generateTable` produce
nothing at all — no rows and no history entry — while present fields (with
a nonempty operation list) always produce a result; malformed numeric
fields are clamped, never rejected: the worker count is at least 1 (exactly
1 on a failed parse or a low value), durations and pauses are at least 0
(exactly 0 on a failed parse or a negative), and the lunch duration is
clamped into `[0, 480]`. -/
theorem C7_failure_semantics :
    (∀ (raw : RawInputs) (ops : List OpInput),
        raw.startDate = none ∨ raw.startTime = none → generateTable raw ops = none) ∧
    (∀ (raw : RawInputs) (ops : List OpInput) (d : ℤ) (t : ℤ × ℤ × Option ℤ),
        raw.startDate = some d → raw.startTime = some t → ops ≠ [] →
        ∃ out, generateTable raw ops = some out) ∧
    (∀ v, 1 ≤ validateNumber v 1 10 ∧ validateNumber v 1 10 ≤ 10) ∧
    validateNumber none 1 10 = 1 ∧
    (∀ n : ℤ, n ≤ 1 → validateNumber (some n) 1 10 = 1) ∧
    (∀ v, 0 ≤ parseClamp0 v) ∧
    parseClamp0 none = 0 ∧
    (∀ q : ℚ, q ≤ 0 → parseClamp0 (some q) = 0) ∧
    (∀ v, 0 ≤ lunchDurClamp v ∧ lunchDurClamp v ≤ 480) ∧
    lunchDurClamp none = 0 ∧
    (∀ q : ℚ, q ≤ 0 → lunchDurClamp (some q) = 0) := by
  refine ⟨?_, ?_, ?_, by simp [validateNumber], ?_, parseClamp0_nonneg,
    by simp [parseClamp0], ?_, ?_, by norm_num [lunchDurClamp], ?_⟩
  · intro raw ops h
    cases hd : raw.startDate <;> cases ht : raw.startTime <;>
      simp_all [generateTable]
  · intro raw ops d t hd ht hops
    have hne : ops.isEmpty = false := by
      cases ops with
      | nil => exact absurd rfl hops
      | cons a l => rfl
    unfold generateTable
    rw [hd, ht]
    simp [hne]
  · intro v
    cases v with
    | none => exact ⟨le_refl 1, by norm_num [validateNumber]⟩
    | some n =>
      simp only [validateNumber]
      omega
  · intro n hn
    simp only [validateNumber]
    omega
  · intro q hq
    simp [parseClamp0, max_eq_left hq]
  · intro v
    cases v with
    | none => norm_num [lunchDurClamp]
    | some q =>
      unfold lunchDurClamp
      constructor
      · exact le_max_left 0 _
      · exact max_le (by norm_num) (min_le_left _ _)
  · intro q hq
    have : min (480 : ℚ) q = q := min_eq_right (le_trans hq (by norm_num))
    simp [lunchDurClamp, this, max_eq_left hq]

/-- C7 witness: a missing start time aborts a concrete run; present fields
produce a result; concrete malformed numerics are clamped. -/
theorem C7_failure_semantics_witness :
    (rawC7missing.startDate = none ∨ rawC7missing.startTime = none) ∧
    generateTable rawC7missing [mkOpMin 10] = none ∧
    rawC7.startDate = some 0 ∧ rawC7.startTime = some (8, 0, some 0) ∧
    [mkOpMin 10] ≠ ([] : List OpInput) ∧
    (∃ out, generateTable rawC7 [mkOpMin 10] = some out) ∧
    (-5 : ℤ) ≤ 1 ∧ validateNumber (some (-5)) 1 10 = 1 ∧
    (-3 : ℚ) ≤ 0 ∧ parseClamp0 (some (-3)) = 0 ∧ lunchDurClamp (some (-3)) = 0 := by
  obtain ⟨h1, h2, _, _, h5, _, _, h8, _, _, h11⟩ := C7_failure_semantics
  exact ⟨Or.inr rfl, h1 rawC7missing _ (Or.inr rfl), rfl, rfl, by simp,
    h2 rawC7 _ 0 (8, 0, some 0) rfl rfl (by simp), by norm_num,
    h5 (-5) (by norm_num), by norm_num, h8 (-3) (by norm_num),
    h11 (-3) (by norm_num)⟩

/-- C9 (amended): a label that `Number(...)` parses as a finite number is
emitted as a numeric cell and otherwise as a text cell; the sanitizer
prefixes an apostrophe exactly to the strings beginning with `=`, `+`, `-`
or `@` and leaves every other string unchanged, and the worker cell's text
fallback passes through it — but the operation-label cell's text fallback
is emitted without the neutralizing prefix. -/
theorem C9_cell_typing :
    (∀ s : String, s.length ≠ 0 → s.get 0 ∈ ['=', '+', '-', '@'] →
        excelSanitizeCell s = apos ++ s) ∧
    (∀ s : String, s.get 0 ∉ ['=', '+', '-', '@'] → excelSanitizeCell s = s) ∧
    (∀ s : String, (jsNumber (stripApos s)).isSome = true →
        opIdxCell s = CellData.number ((jsNumber (stripApos s)).getD 0)) ∧
    (∀ s : String, jsNumber (stripApos s) = none → opIdxCell s = CellData.text s) ∧
    (∀ s : String, s.trim ≠ "" → (jsNumber (stripApos s)).isSome = true →
        workerCell s = CellData.number ((jsNumber (stripApos s)).getD 0)) ∧
    (∀ s : String, jsNumber (stripApos s) = none →
        workerCell s = CellData.text (excelSanitizeCell s)) := by
  refine ⟨?_, ?_, ?_, ?_, ?_, ?_⟩
  · intro s hlen hin
    unfold excelSanitizeCell
    rw [if_neg hlen, if_pos hin]
  · intro s hnotin
    unfold excelSanitizeCell
    by_cases hlen : s.length = 0
    · rw [if_pos hlen]
      have : s = "" := by
        cases s with
        | mk cs =>
          cases cs with
          | nil => rfl
          | cons c l => simp [String.length] at hlen
      rw [this]
    · rw [if_neg hlen, if_neg hnotin]
  · intro s hsome
    obtain ⟨q, hq⟩ := Option.isSome_iff_exists.mp hsome
    unfold opIdxCell
    rw [hq]
    rfl
  · intro s hnone
    unfold opIdxCell
    rw [hnone]
  · intro s htrim hsome
    unfold workerCell
    rw [if_pos ⟨htrim, hsome⟩]
  · intro s hnone
    unfold workerCell
    rw [if_neg]
    intro hcon
    rw [hnone] at hcon
    exact absurd hcon.2 (by simp)

/-- C9 witness: a dangerous-prefix label is neutralized by the sanitizer, a
plain digit label becomes a numeric opIdx cell, and a non-numeric label
becomes an unsanitized text opIdx cell. -/
theorem C9_cell_typing_witness :
    ("@x" : String).length ≠ 0 ∧ ("@x" : String).get 0 ∈ ['=', '+', '-', '@'] ∧
    excelSanitizeCell "@x" = apos ++ "@x" ∧
    (jsNumber (stripApos "12")).isSome = true ∧
    opIdxCell "12" = CellData.number ((jsNumber (stripApos "12")).getD 0) ∧
    jsNumber (stripApos injStr) = none ∧
    opIdxCell injStr = CellData.text injStr ∧
    workerCell injStr = CellData.text (excelSanitizeCell injStr) := by
  obtain ⟨h1, _, h3, h4, _, h6⟩ := C9_cell_typing
  exact ⟨by decide, by decide, h1 "@x" (by decide) (by decide),
    by decide, h3 "12" (by decide), by decide, h4 injStr (by decide),
    h6 injStr (by decide)⟩

/-- C9 counterexample: the non-numeric operation label `=1+1` is emitted in
the ПДТВ cell as raw text, although the sanitizer (which the claim says is
applied to every free-text cell of the export) would have produced the
apostrophe-prefixed string, which differs. -/
theorem C9_counterexample :
    opIdxCell injStr = CellData.text injStr ∧
    excelSanitizeCell injStr = apos ++ injStr ∧
    CellData.text injStr ≠ CellData.text (apos ++ injStr) := by
  refine ⟨?_, by decide, by decide⟩
  unfold opIdxCell
  rw [show jsNumber (stripApos injStr) = none from by decide]

/-- C10: a second lunch window stored as exactly 00:00 makes the emitter
drop every second-lunch term (the end-time and icon formulas reduce to
their single-window forms for all cell values), while the scheduler rolls
that window to next-day midnight whenever the start time is past midnight
and still processes it — so a midnight-crossing schedule diverges: the
concrete 23:00 run of 120 minutes is marked crossed with its end inflated
by the rolled window, while the emitted formulas show no icon and an
uninflated end. -/
theorem C10_second_lunch_sentinel :
    (∀ p : LunchParams, p.h2 = 0 → p.m2 = 0 → hasLunch2 p = false) ∧
    (∀ (p : LunchParams) (u sv dv : ℚ), p.h2 = 0 → p.m2 = 0 →
        endFormulaEval p u sv dv =
          MOD1 (sv + dv / u +
            if sv < l1Val p ∧ l1Val p + TIMEv 0 0 1 < sv + dv / u
            then TIMEv 0 (ldOf p) 0 else 0) ∧
        iconFormulaEval p u sv dv =
          decide (|sv - l1End p| < TIMEv 0 0 1 ∨
            (sv < l1Val p ∧ l1Val p + TIMEv 0 0 1 < sv + dv / u))) ∧
    (∀ cfg : Config, cfg.lunch2H = 0 → cfg.lunch2M = 0 → 0 < cfg.startOffset →
        cfg.lunch2S = cfg.dayStart + msPerDay) ∧
    (runSchedule cfgC10 [opC10]).intervals = [(82800000, 93600000, true)] ∧
    hasLunch2 cfgC10.lunchParams = false ∧
    iconFormulaEval cfgC10.lunchParams 1440 (dayFrac 82800000) 120 = false ∧
    endFormulaEval cfgC10.lunchParams 1440 (dayFrac 82800000) 120 ≠ dayFrac 93600000 := by
  have hno2 : ∀ p : LunchParams, p.h2 = 0 → p.m2 = 0 → hasLunch2 p = false := by
    intro p h2 m2
    simp [hasLunch2, h2, m2]
  refine ⟨hno2, ?_, ?_, ?_, ?_, ?_, ?_⟩
  · intro p u sv dv h2 m2
    constructor
    · simp [endFormulaEval, hno2 p h2 m2]
    · simp [iconFormulaEval, hno2 p h2 m2]
  · intro cfg h2 m2 hoff
    unfold Config.lunch2S
    rw [h2, m2]
    simp only [Config.startGlobal]
    rw [if_pos (by omega)]
    ring
  · simp [runSchedule, runAux, stepOp, adjustLunches, applyLunchWindow, opRows,
      Config.lunches, sortLunches, Config.window1, Config.window2, Config.lunch1S,
      Config.lunch1E, Config.lunch2S, Config.lunch2E, Config.startGlobal,
      Config.dayStart, Config.lunchDurMin, Config.workerCount, lunchDurClamp,
      validateNumber, durCalc, displayDur, origDurationMs, parseClamp0,
      normalizeUnit, opBreakSec, origOpBreakMs, opBreakMsForCalc, jsTrunc,
      msPerDay, mkOpMin, cfgC10, opC10, max_def, min_def]
    norm_num
  · exact hno2 _ rfl rfl
  · norm_num [iconFormulaEval, hasLunch2, Config.lunchParams, cfgC10, l1Val,
      l1End, ldOf, TIMEv, MOD1, dayFrac, msPerDay, lunchDurClamp,
      Config.lunchDurMin, max_def, min_def, -Int.self_sub_floor]
    rw [abs_of_nonneg (by norm_num : (0 : ℚ) ≤ 5 / 12)]
    norm_num
  · norm_num [endFormulaEval, hasLunch2, Config.lunchParams, cfgC10, l1Val,
      l1End, ldOf, TIMEv, MOD1, dayFrac, msPerDay, lunchDurClamp,
      Config.lunchDurMin, max_def, min_def, -Int.self_sub_floor]

/-- C2: the lunch loop's case analysis — Rule A (start inside the window)
moves the start to the window end, recomputes the end from the duration and
marks the crossing; Rule B (interval strictly spanning the window start)
inflates the end by the window's length and marks the crossing; an interval
whose end equals the window start exactly is left untouched; and the two
concrete boundary runs: a `[08:00, 08:30)` operation against lunch
`[08:30, 09:00)` emits `crossedLunch = false` with end `08:30`, while
`[08:00, 08:31)` emits `crossedLunch = true` with end `09:01`. -/
theorem C2_lunch_rules :
    (∀ (dur : ℚ) (s e : ℤ) (c : Bool) (l : LunchWindow),
        l.s ≤ l.e → l.s ≤ s → s < l.e →
        applyLunchWindow dur (s, e, c) l = (l.e, jsTrunc ((l.e : ℚ) + dur), true)) ∧
    (∀ (dur : ℚ) (s e : ℤ) (c : Bool) (l : LunchWindow),
        s < l.s → l.s < e →
        applyLunchWindow dur (s, e, c) l = (s, e + (l.e - l.s), true)) ∧
    (∀ (dur : ℚ) (s : ℤ) (c : Bool) (l : LunchWindow),
        ¬(l.s ≤ s ∧ s < l.e) →
        applyLunchWindow dur (s, l.s, c) l = (s, l.s, c)) ∧
    (runSchedule cfgC2 [mkOpMin 30]).rows.map
        (fun r => (r.startMs, r.endMs, r.crossedLunch))
      = [(28800000, 30600000, false)] ∧
    (runSchedule cfgC2 [mkOpMin 31]).rows.map
        (fun r => (r.startMs, r.endMs, r.crossedLunch))
      = [(28800000, 32460000, true)] := by
  refine ⟨?_, ?_, ?_, ?_, ?_⟩
  · intro dur s e c l hle hA1 hA2
    unfold applyLunchWindow
    dsimp only
    rw [if_pos (show l.s ≤ s ∧ s < l.e from ⟨hA1, hA2⟩)]
    dsimp only
    rw [if_neg]
    intro hcon
    exact absurd (lt_of_le_of_lt hle hcon.1) (lt_irrefl l.s)
  · intro dur s e c l hB1 hB2
    unfold applyLunchWindow
    dsimp only
    rw [if_neg (show ¬(l.s ≤ s ∧ s < l.e) from
      fun hcon => absurd hcon.1 (not_le.mpr hB1))]
    dsimp only
    rw [if_pos (show s < l.s ∧ l.s < e from ⟨hB1, hB2⟩)]
  · intro dur s c l hA
    unfold applyLunchWindow
    dsimp only
    rw [if_neg hA]
    dsimp only
    rw [if_neg]
    intro hcon
    exact absurd hcon.2 (lt_irrefl l.s)
  · simp [runSchedule, runAux, stepOp, adjustLunches, applyLunchWindow, opRows,
      Config.lunches, sortLunches, Config.window1, Config.window2, Config.lunch1S,
      Config.lunch1E, Config.lunch2S, Config.lunch2E, Config.startGlobal,
      Config.dayStart, Config.lunchDurMin, Config.workerCount, lunchDurClamp,
      validateNumber, durCalc, displayDur, origDurationMs, parseClamp0,
      normalizeUnit, opBreakSec, origOpBreakMs, opBreakMsForCalc, jsTrunc,
      msPerDay, mkOpMin, cfgC2, max_def, min_def, List.range_succ]
    norm_num
  · simp [runSchedule, runAux, stepOp, adjustLunches, applyLunchWindow, opRows,
      Config.lunches, sortLunches, Config.window1, Config.window2, Config.lunch1S,
      Config.lunch1E, Config.lunch2S, Config.lunch2E, Config.startGlobal,
      Config.dayStart, Config.lunchDurMin, Config.workerCount, lunchDurClamp,
      validateNumber, durCalc, displayDur, origDurationMs, parseClamp0,
      normalizeUnit, opBreakSec, origOpBreakMs, opBreakMsForCalc, jsTrunc,
      msPerDay, mkOpMin, cfgC2, max_def, min_def, List.range_succ]
    norm_num

/-- C2 witness: the three rule shapes instantiated at concrete windows and
intervals. -/
theorem C2_lunch_rules_witness :
    ((10 : ℤ) ≤ 20 ∧ (10 : ℤ) ≤ 12 ∧ (12 : ℤ) < 20 ∧
      applyLunchWindow 5 (12, 17, false) ⟨10, 20⟩ = (20, jsTrunc ((20 : ℚ) + 5), true)) ∧
    ((5 : ℤ) < 10 ∧ (10 : ℤ) < 15 ∧
      applyLunchWindow 10 (5, 15, false) ⟨10, 20⟩ = (5, 15 + (20 - 10), true)) ∧
    (¬((10 : ℤ) ≤ 5 ∧ (5 : ℤ) < 20) ∧
      applyLunchWindow 5 (5, 10, false) ⟨10, 20⟩ = (5, 10, false)) := by
  obtain ⟨hA, hB, hN, _, _⟩ := C2_lunch_rules
  refine ⟨⟨by norm_num, by norm_num, by norm_num,
      hA 5 12 17 false ⟨10, 20⟩ (by norm_num) (by norm_num) (by norm_num)⟩,
    ⟨by norm_num, by norm_num,
      hB 10 5 15 false ⟨10, 20⟩ (by norm_num) (by norm_num)⟩,
    ⟨by norm_num, ?_⟩⟩
  exact hN 5 5 false ⟨10, 20⟩ (by norm_num)

/-- C10 witness: the sentinel branch and the day-roll instantiated on the
midnight-crossing configuration. -/
theorem C10_second_lunch_sentinel_witness :
    cfgC10.lunch2H = 0 ∧ cfgC10.lunch2M = 0 ∧ 0 < cfgC10.startOffset ∧
    Config.lunch2S cfgC10 = Config.dayStart cfgC10 + msPerDay ∧
    hasLunch2 cfgC10.lunchParams = false := by
  obtain ⟨h1, _, h3, _⟩ := C10_second_lunch_sentinel
  exact ⟨rfl, rfl, by norm_num [cfgC10], h3 cfgC10 rfl rfl (by norm_num [cfgC10]),
    h1 cfgC10.lunchParams rfl rfl⟩

/-- C5 (amended): once worker `w` is unchecked on operation `k`, the
forward-propagating handler revokes that worker on operation `k` and on
every later operation, and the revocation persists through any subsequent
clicks except an explicit re-check of that very operation's box — so the
scheduler emits no row for `(j, w)` for any `j ≥ k` whose box was not
explicitly re-checked afterwards. -/
theorem C5_exclusion_propagation (cfg : Config) (ops : List OpInput)
    (es1 es2 : List CbEvent) (k j w : ℕ) (hkj : k ≤ j)
    (hno : CbEvent.set j w true ∉ es2) :
    ∀ r ∈ (runSchedule cfg (attachCbState ops
        (runCbEvents (es1 ++ CbEvent.set k w false :: es2)))).rows,
      ¬(r.opNumeric = j + 1 ∧ r.workerIndex = w) := by
  intro r hr hcon
  obtain ⟨n, op, hget, hnum, hcb⟩ :=
    mem_runAux_rows cfg _ _ _ r hr
  have hn : n = j := by omega
  subst hn
  have hcbeq := attachCbStateFrom_get _ _ _ _ _ hget
  rw [hcbeq] at hcb
  apply hcb
  rw [hcon.2]
  rw [show (0 + n : ℕ) = n from by omega]
  show some (runCbEvents (es1 ++ CbEvent.set k w false :: es2) n w) = some false
  rw [runCbEvents_after_uncheck es1 es2 k n w (by omega) hno]

/-- C5 witness: with worker 2 unchecked on operation 3 (index 2) and only
operation 4's box later re-checked, operation 5 (index 4) emits no row for
worker 2. -/
theorem C5_exclusion_propagation_witness :
    (2 : ℕ) ≤ 4 ∧ CbEvent.set 4 2 true ∉ [CbEvent.set 3 2 true] ∧
    ∀ r ∈ (runSchedule cfgC5 (attachCbState opsC5
        (runCbEvents ([] ++ CbEvent.set 2 2 false :: [CbEvent.set 3 2 true])))).rows,
      ¬(r.opNumeric = 4 + 1 ∧ r.workerIndex = 2) :=
  ⟨by norm_num, by decide,
    C5_exclusion_propagation cfgC5 opsC5 [] [CbEvent.set 3 2 true] 2 4 2
      (by norm_num) (by decide)⟩

/-- C5 counterexample: worker 2 is unchecked on operation 3 of a
five-operation run and the worker's box on operation 4 is checked again by
the user; the scheduler then emits no row for operation 3 but does emit a
row for operation 4 and worker 2, contradicting the claim that no
subsequent operation of the run can have one. -/
theorem C5_counterexample :
    stC5 2 2 = false ∧ stC5 3 2 = true ∧
    (∀ r ∈ (runSchedule cfgC5 (attachCbState opsC5 stC5)).rows,
        ¬(r.opNumeric = 3 ∧ r.workerIndex = 2)) ∧
    ∃ r ∈ (runSchedule cfgC5 (attachCbState opsC5 stC5)).rows,
      r.opNumeric = 4 ∧ r.workerIndex = 2 := by decide

/-- C3: clock monotonicity — every computed interval satisfies
`start ≤ end`, consecutive operations never run backwards
(`end[i] ≤ start[i+1]`), every emitted row is well-ordered, and the lunch
adjustment can only move the start and the end of an interval forward.
Durations and pauses are clamped non-negative by the scheduler itself, so
no extra hypotheses are needed. -/
theorem C3_monotonicity (cfg : Config) (ops : List OpInput) :
    (∀ t ∈ (runSchedule cfg ops).intervals, t.1 ≤ t.2.1) ∧
    List.Chain' (fun a b : ℤ × ℤ × Bool => a.2.1 ≤ b.1)
      (runSchedule cfg ops).intervals ∧
    (∀ r ∈ (runSchedule cfg ops).rows, r.startMs ≤ r.endMs) ∧
    (∀ (op : OpInput) (start : ℤ),
        start ≤ (adjustLunches cfg start (durCalc cfg op)).1 ∧
        jsTrunc ((start : ℚ) + durCalc cfg op) ≤
          (adjustLunches cfg start (durCalc cfg op)).2.1) := by
  obtain ⟨hB, hC⟩ := runAux_intervals_invariant cfg ops cfg.startGlobal 0
  refine ⟨fun t ht => (hB t ht).1, hC,
    runAux_rows_wellordered cfg ops cfg.startGlobal 0, fun op start => ?_⟩
  obtain ⟨h1, h2, _⟩ := adjustLunches_mono cfg start (durCalc_nonneg cfg op)
  exact ⟨h1, h2⟩

/-- C8: all rows emitted for the same operation carry the identical copied
start and end instants; rows appear in operation order and, within an
operation, in strictly ascending worker order; and the export's stable
re-sort by (operation, worker) leaves the scheduler's row list unchanged. -/
theorem C8_row_emission (cfg : Config) (ops : List OpInput) :
    (∀ r1 ∈ (runSchedule cfg ops).rows, ∀ r2 ∈ (runSchedule cfg ops).rows,
        r1.opNumeric = r2.opNumeric →
        r1.startMs = r2.startMs ∧ r1.endMs = r2.endMs) ∧
    List.Pairwise (fun a b : Row => a.opNumeric < b.opNumeric ∨
        (a.opNumeric = b.opNumeric ∧ a.workerIndex < b.workerIndex))
      (runSchedule cfg ops).rows ∧
    exportSort (runSchedule cfg ops).rows = (runSchedule cfg ops).rows := by
  obtain ⟨_, hEq, hPW⟩ := runAux_rows_invariant cfg ops cfg.startGlobal 0
  have hrows : (runSchedule cfg ops).rows = (runAux cfg cfg.startGlobal 0 ops).2.2 := rfl
  rw [hrows]
  refine ⟨hEq, hPW, ?_⟩
  have hsorted : List.Sorted exportLe (runAux cfg cfg.startGlobal 0 ops).2.2 := by
    refine hPW.imp ?_
    intro a b hab
    cases hab with
    | inl h => exact Or.inl h
    | inr h => exact Or.inr ⟨h.1, le_of_lt h.2⟩
  exact hsorted.insertionSort_eq

/-- C1 counterexample: in the two-entry chained scenario (run A: one
240.01-minute operation from 08:00 against the 12:00+60min lunch window,
chain seed 13:00:00 feeding run B), the imperative scheduler crosses the
lunch window (Rule B: raw end 12:00:00.6) and emits
`(08:00:00, 13:00:00.6, crossed)`; but substituting the literal exported
cell values into the emitted end-time formula yields the un-inflated
12:00:00.6 (its one-second tolerance `l1Val + TIME(0,0,1) < rawEnd` fails
at a 0.6 s overlap where the imperative test `lunchStart < end` is strict),
and the lunch-icon formula shows no icon — so the formula realization does
not reproduce the imperative end/crossed values. -/
theorem C1_counterexample :
    (runSchedule cfgA [opA]).rows.map
        (fun r => (r.startMs, r.endMs, r.crossedLunch, r.durVal, r.unitIsHour))
      = [(28800000, 46800600, true, 24001 / 100, false)] ∧
    (runSchedule cfgA [opA]).nextStartDefault = some cfgB.startGlobal ∧
    hasLunch2 cfgA.lunchParams = false ∧
    endFormulaEval cfgA.lunchParams (unitDivOf false) (dayFrac 28800000)
        (24001 / 100) ≠ dayFrac 46800600 ∧
    iconFormulaEval cfgA.lunchParams (unitDivOf false) (dayFrac 28800000)
        (24001 / 100) = false := by
  refine ⟨?_, ?_, ?_, ?_, ?_⟩
  · simp [runSchedule, runAux, stepOp, adjustLunches, applyLunchWindow, opRows,
      Config.lunches, sortLunches, Config.window1, Config.window2, Config.lunch1S,
      Config.lunch1E, Config.lunch2S, Config.lunch2E, Config.startGlobal,
      Config.dayStart, Config.lunchDurMin, Config.workerCount, lunchDurClamp,
      validateNumber, durCalc, displayDur, origDurationMs, parseClamp0,
      normalizeUnit, opBreakSec, origOpBreakMs, opBreakMsForCalc, jsTrunc,
      msPerDay, mkOpMin, cfgA, opA, max_def, min_def, List.range_succ]
    norm_num
  · simp [runSchedule, runAux, stepOp, adjustLunches, applyLunchWindow, opRows,
      Config.lunches, sortLunches, Config.window1, Config.window2, Config.lunch1S,
      Config.lunch1E, Config.lunch2S, Config.lunch2E, Config.startGlobal,
      Config.dayStart, Config.lunchDurMin, Config.workerCount, lunchDurClamp,
      validateNumber, durCalc, displayDur, origDurationMs, parseClamp0,
      normalizeUnit, opBreakSec, origOpBreakMs, opBreakMsForCalc, jsTrunc,
      msPerDay, mkOpMin, cfgA, opA, cfgB, chainSeed, max_def, min_def,
      List.range_succ]
    norm_num
  · simp [hasLunch2, Config.lunchParams, cfgA]
  · norm_num [endFormulaEval, hasLunch2, Config.lunchParams, cfgA, l1Val,
      l1End, ldOf, TIMEv, MOD1, dayFrac, msPerDay, lunchDurClamp,
      Config.lunchDurMin, unitDivOf, max_def, min_def, -Int.self_sub_floor]
  · norm_num [iconFormulaEval, hasLunch2, Config.lunchParams, cfgA, l1Val,
      l1End, ldOf, TIMEv, MOD1, dayFrac, msPerDay, lunchDurClamp,
      Config.lunchDurMin, unitDivOf, max_def, min_def, -Int.self_sub_floor]
    rw [abs_of_nonneg (by norm_num : (0 : ℚ) ≤ 5 / 24)]
    norm_num

/-- C1 (amended): for a chained export with the second lunch window at the
00:00 sentinel (rolled past the schedule) and a nonzero lunch duration,
when the whole schedule stays inside the start day, the duration, pause and
lunch length are whole milliseconds, and every interval boundary stays at
least one second clear of the lunch-window boundary tests (the emitted
end-time and lunch-icon formulas use a one-second tolerance where the
imperative scheduler compares strictly), substituting the literal cell
values into the emitted chain-start, operation-start, end-time and
lunch-icon formulas reproduces exactly the imperative start, end and
crossed-lunch values of the operation; and the persisted chain seed is the
exact previous end whenever the final clock lies on a whole second. -/
theorem C1_formula_equivalence (cfg : Config) (op : OpInput) (gt : ℤ)
    (hmode : cfg.timeMode ≠ TimeMode.individual)
    (h2H : cfg.lunch2H = 0) (h2M : cfg.lunch2M = 0) (hoff : 0 < cfg.startOffset)
    (hld0 : cfg.lunchDurMin ≠ 0)
    (lk dm bs : ℤ)
    (hlk : cfg.lunchDurMin * 60000 = (lk : ℚ))
    (hdm : durCalc cfg op = (dm : ℚ))
    (hbs : opBreakSec op * 1000 = (bs : ℚ))
    (hgt : cfg.dayStart ≤ gt)
    (hl1 : cfg.dayStart ≤ cfg.lunch1S)
    (hday1 : gt + bs + dm + lk < cfg.dayStart + msPerDay)
    (hday2 : cfg.lunch1S + lk + dm < cfg.dayStart + msPerDay)
    (htol : (cfg.lunch1S ≤ gt + bs ∧ gt + bs < cfg.lunch1S + lk) ∨
      gt + bs + dm ≤ cfg.lunch1S ∨ cfg.lunch1S + 1000 < gt + bs + dm)
    (hsep : (cfg.lunch1S ≤ gt + bs ∧ gt + bs < cfg.lunch1S + lk) ∨
      gt + bs + 1000 ≤ cfg.lunch1S + lk ∨ cfg.lunch1S + lk + 1000 ≤ gt + bs) :
    (∀ t : ℤ, t % 1000 = 0 → chainSeed t = t) ∧
    chainStartFormulaEval cfg.lunchParams (dayFrac gt) (opBreakSec op / 86400)
      = dayFrac (opTriple cfg gt op).1 ∧
    opStartFormulaEval cfg.lunchParams (dayFrac gt) (opBreakSec op / 86400)
      = dayFrac (opTriple cfg gt op).1 ∧
    endFormulaEval cfg.lunchParams
        (unitDivOf (decide (normalizeUnit op.unitRaw = "hour")))
        (dayFrac (opTriple cfg gt op).1) (displayDur cfg op)
      = dayFrac (opTriple cfg gt op).2.1 ∧
    iconFormulaEval cfg.lunchParams
        (unitDivOf (decide (normalizeUnit op.unitRaw = "hour")))
        (dayFrac (opTriple cfg gt op).1) (displayDur cfg op)
      = (opTriple cfg gt op).2.2 := by
  have hms : msPerDay = 86400000 := rfl
  have hlk0 : (0 : ℤ) ≤ lk := by
    have h : (0 : ℚ) ≤ (lk : ℚ) := by
      rw [← hlk]
      have := lunchDurMin_nonneg cfg
      positivity
    exact_mod_cast h
  have hdm0 : (0 : ℤ) ≤ dm := by
    have h : (0 : ℚ) ≤ (dm : ℚ) := by
      rw [← hdm]
      exact durCalc_nonneg cfg op
    exact_mod_cast h
  have hbs0 : (0 : ℤ) ≤ bs := by
    have h : (0 : ℚ) ≤ (bs : ℚ) := by
      rw [← hbs]
      have := opBreakSec_nonneg op
      positivity
    exact_mod_cast h
  have hno2 : hasLunch2 cfg.lunchParams = false := by
    simp [hasLunch2, Config.lunchParams, h2H, h2M]
  have hld : ldOf cfg.lunchParams = cfg.lunchDurMin := by
    simp [ldOf, Config.lunchParams, hld0]
  have hl1v : l1Val cfg.lunchParams
      = ((cfg.lunch1S - cfg.dayStart : ℤ) : ℚ) / 86400000 := by
    show TIMEv (cfg.lunch1H : ℚ) (cfg.lunch1M : ℚ) 0 = _
    unfold TIMEv Config.lunch1S
    push_cast
    ring
  have hlkT : TIMEv 0 (ldOf cfg.lunchParams) 0 = ((lk : ℤ) : ℚ) / 86400000 := by
    rw [hld]
    unfold TIMEv
    rw [← hlk]
    ring
  have hl1e : l1End cfg.lunchParams
      = ((cfg.lunch1S + lk - cfg.dayStart : ℤ) : ℚ) / 86400000 := by
    unfold l1End
    rw [hl1v, hlkT, dayDiv_add]
    have h : cfg.lunch1S - cfg.dayStart + lk = cfg.lunch1S + lk - cfg.dayStart := by
      ring
    rw [h]
  have hsec : TIMEv 0 0 1 = ((1000 : ℤ) : ℚ) / 86400000 := by
    unfold TIMEv
    norm_num
  have hpause : opBreakSec op / 86400 = ((bs : ℤ) : ℚ) / 86400000 := by
    rw [← hbs]
    ring
  have hdd : displayDur cfg op /
      unitDivOf (decide (normalizeUnit op.unitRaw = "hour"))
      = ((dm : ℤ) : ℚ) / 86400000 := by
    rw [displayDur_div_unitDiv cfg op hmode, hdm]
  have hgt2 : gt < cfg.dayStart + msPerDay := by omega
  have hdfgt : dayFrac gt = ((gt - cfg.dayStart : ℤ) : ℚ) / 86400000 :=
    dayFrac_eq cfg gt hgt hgt2
  have hdfs0 : dayFrac (gt + bs) = ((gt + bs - cfg.dayStart : ℤ) : ℚ) / 86400000 :=
    dayFrac_eq cfg (gt + bs) (by omega) (by omega)
  have hdfS : dayFrac (cfg.lunch1S + lk)
      = ((cfg.lunch1S + lk - cfg.dayStart : ℤ) : ℚ) / 86400000 :=
    dayFrac_eq cfg (cfg.lunch1S + lk) (by omega) (by omega)
  have hopT := opTriple_single_window cfg op gt hmode h2H h2M hoff lk dm bs
    hlk hdm hbs hgt hday1 hday2
  have hraw : dayFrac gt + opBreakSec op / 86400
      = ((gt + bs - cfg.dayStart : ℤ) : ℚ) / 86400000 := by
    rw [hdfgt, hpause, dayDiv_add]
    have h : gt - cfg.dayStart + bs = gt + bs - cfg.dayStart := by ring
    rw [h]
  have hstart : opStartFormulaEval cfg.lunchParams (dayFrac gt)
      (opBreakSec op / 86400) = dayFrac (opTriple cfg gt op).1 := by
    rw [startFormula_noLunch2 _ _ _ hno2, hraw, hl1v, hl1e]
    by_cases hA : cfg.lunch1S ≤ gt + bs ∧ gt + bs < cfg.lunch1S + lk
    · have hc : ((cfg.lunch1S - cfg.dayStart : ℤ) : ℚ) / 86400000 ≤
          ((gt + bs - cfg.dayStart : ℤ) : ℚ) / 86400000 ∧
          ((gt + bs - cfg.dayStart : ℤ) : ℚ) / 86400000 <
          ((cfg.lunch1S + lk - cfg.dayStart : ℤ) : ℚ) / 86400000 :=
        ⟨dayDiv_le.mpr (by omega), dayDiv_lt.mpr (by omega)⟩
      rw [if_pos hc, hopT, if_pos hA]
      exact MOD1_dayDiv cfg (cfg.lunch1S + lk) (by omega) (by omega)
    · have hc : ¬(((cfg.lunch1S - cfg.dayStart : ℤ) : ℚ) / 86400000 ≤
          ((gt + bs - cfg.dayStart : ℤ) : ℚ) / 86400000 ∧
          ((gt + bs - cfg.dayStart : ℤ) : ℚ) / 86400000 <
          ((cfg.lunch1S + lk - cfg.dayStart : ℤ) : ℚ) / 86400000) := by
        intro hcon
        have h1 := dayDiv_le.mp hcon.1
        have h2 := dayDiv_lt.mp hcon.2
        exact hA ⟨by omega, by omega⟩
      rw [if_neg hc, hopT, if_neg hA]
      by_cases hB : gt + bs < cfg.lunch1S ∧ cfg.lunch1S < gt + bs + dm
      · rw [if_pos hB]
        exact MOD1_dayDiv cfg (gt + bs) (by omega) (by omega)
      · rw [if_neg hB]
        exact MOD1_dayDiv cfg (gt + bs) (by omega) (by omega)
  have hend : endFormulaEval cfg.lunchParams
      (unitDivOf (decide (normalizeUnit op.unitRaw = "hour")))
      (dayFrac (opTriple cfg gt op).1) (displayDur cfg op)
      = dayFrac (opTriple cfg gt op).2.1 := by
    rw [endFormula_noLunch2 _ _ _ _ hno2, hdd, hlkT, hsec, hl1v, hopT]
    by_cases hA : cfg.lunch1S ≤ gt + bs ∧ gt + bs < cfg.lunch1S + lk
    · rw [if_pos hA]
      dsimp only
      rw [hdfS, dayDiv_add]
      have h : cfg.lunch1S + lk - cfg.dayStart + dm
          = cfg.lunch1S + lk + dm - cfg.dayStart := by ring
      rw [h]
      have hc : ¬(((cfg.lunch1S + lk - cfg.dayStart : ℤ) : ℚ) / 86400000 <
          ((cfg.lunch1S - cfg.dayStart : ℤ) : ℚ) / 86400000 ∧
          ((cfg.lunch1S - cfg.dayStart : ℤ) : ℚ) / 86400000 +
            ((1000 : ℤ) : ℚ) / 86400000 <
          ((cfg.lunch1S + lk + dm - cfg.dayStart : ℤ) : ℚ) / 86400000) := by
        intro hcon
        exact absurd (dayDiv_lt.mp hcon.1) (by omega)
      rw [if_neg hc, add_zero]
      exact MOD1_dayDiv cfg (cfg.lunch1S + lk + dm) (by omega) (by omega)
    · rw [if_neg hA]
      by_cases hB : gt + bs < cfg.lunch1S ∧ cfg.lunch1S < gt + bs + dm
      · rw [if_pos hB]
        dsimp only
        rw [hdfs0, dayDiv_add]
        have h : gt + bs - cfg.dayStart + dm = gt + bs + dm - cfg.dayStart := by
          ring
        rw [h]
        have hc : ((gt + bs - cfg.dayStart : ℤ) : ℚ) / 86400000 <
            ((cfg.lunch1S - cfg.dayStart : ℤ) : ℚ) / 86400000 ∧
            ((cfg.lunch1S - cfg.dayStart : ℤ) : ℚ) / 86400000 +
              ((1000 : ℤ) : ℚ) / 86400000 <
            ((gt + bs + dm - cfg.dayStart : ℤ) : ℚ) / 86400000 := by
          constructor
          · exact dayDiv_lt.mpr (by omega)
          · rw [dayDiv_add]
            exact dayDiv_lt.mpr (by omega)
        rw [if_pos hc, dayDiv_add]
        have h2 : gt + bs + dm - cfg.dayStart + lk
            = gt + bs + dm + lk - cfg.dayStart := by ring
        rw [h2]
        exact MOD1_dayDiv cfg (gt + bs + dm + lk) (by omega) (by omega)
      · rw [if_neg hB]
        dsimp only
        rw [hdfs0, dayDiv_add]
        have h : gt + bs - cfg.dayStart + dm = gt + bs + dm - cfg.dayStart := by
          ring
        rw [h]
        have hc : ¬(((gt + bs - cfg.dayStart : ℤ) : ℚ) / 86400000 <
            ((cfg.lunch1S - cfg.dayStart : ℤ) : ℚ) / 86400000 ∧
            ((cfg.lunch1S - cfg.dayStart : ℤ) : ℚ) / 86400000 +
              ((1000 : ℤ) : ℚ) / 86400000 <
            ((gt + bs + dm - cfg.dayStart : ℤ) : ℚ) / 86400000) := by
          intro hcon
          obtain ⟨hc1, hc2⟩ := hcon
          have h1 := dayDiv_lt.mp hc1
          rw [dayDiv_add] at hc2
          have h2 := dayDiv_lt.mp hc2
          omega
        rw [if_neg hc, add_zero]
        exact MOD1_dayDiv cfg (gt + bs + dm) (by omega) (by omega)
  have hicon : iconFormulaEval cfg.lunchParams
      (unitDivOf (decide (normalizeUnit op.unitRaw = "hour")))
      (dayFrac (opTriple cfg gt op).1) (displayDur cfg op)
      = (opTriple cfg gt op).2.2 := by
    rw [iconFormula_noLunch2 _ _ _ _ hno2, hdd, hsec, hl1v, hl1e, hopT]
    by_cases hA : cfg.lunch1S ≤ gt + bs ∧ gt + bs < cfg.lunch1S + lk
    · rw [if_pos hA]
      dsimp only
      rw [hdfS]
      rw [decide_eq_true_eq]
      left
      rw [sub_self, abs_zero]
      positivity
    · rw [if_neg hA]
      by_cases hB : gt + bs < cfg.lunch1S ∧ cfg.lunch1S < gt + bs + dm
      · rw [if_pos hB]
        dsimp only
        rw [hdfs0]
        rw [decide_eq_true_eq]
        refine Or.inr ⟨dayDiv_lt.mpr (by omega), ?_⟩
        rw [dayDiv_add, dayDiv_add]
        exact dayDiv_lt.mpr (by omega)
      · rw [if_neg hB]
        dsimp only
        rw [hdfs0]
        rw [decide_eq_false_iff_not]
        rintro (hsh | hcov)
        · rw [dayDiv_abs_lt] at hsh
          have h : gt + bs - cfg.dayStart - (cfg.lunch1S + lk - cfg.dayStart)
              = gt + bs - (cfg.lunch1S + lk) := by ring
          rw [h, abs_lt] at hsh
          omega
        · obtain ⟨hc1, hc2⟩ := hcov
          have h1 := dayDiv_lt.mp hc1
          rw [dayDiv_add, dayDiv_add] at hc2
          have h2 := dayDiv_lt.mp hc2
          omega
  refine ⟨fun t ht => ?_, (chainStart_eq_opStart _ _ _).trans hstart, hstart,
    hend, hicon⟩
  unfold chainSeed
  omega

/-- C1 witness: the amended equivalence instantiated on the chained
configuration of run A with a 300-minute operation from 08:00 that cleanly
spans the 12:00+60min lunch window with more than a second to spare on
every boundary. -/
theorem C1_formula_equivalence_witness :
    (cfgA.timeMode ≠ TimeMode.individual ∧
      cfgA.lunch2H = 0 ∧ cfgA.lunch2M = 0 ∧ 0 < cfgA.startOffset ∧
      cfgA.lunchDurMin ≠ 0 ∧
      cfgA.lunchDurMin * 60000 = ((3600000 : ℤ) : ℚ) ∧
      durCalc cfgA opC1w = ((18000000 : ℤ) : ℚ) ∧
      opBreakSec opC1w * 1000 = ((0 : ℤ) : ℚ)) ∧
    ((∀ t : ℤ, t % 1000 = 0 → chainSeed t = t) ∧
      chainStartFormulaEval cfgA.lunchParams (dayFrac 28800000)
          (opBreakSec opC1w / 86400)
        = dayFrac (opTriple cfgA 28800000 opC1w).1 ∧
      opStartFormulaEval cfgA.lunchParams (dayFrac 28800000)
          (opBreakSec opC1w / 86400)
        = dayFrac (opTriple cfgA 28800000 opC1w).1 ∧
      endFormulaEval cfgA.lunchParams
          (unitDivOf (decide (normalizeUnit opC1w.unitRaw = "hour")))
          (dayFrac (opTriple cfgA 28800000 opC1w).1) (displayDur cfgA opC1w)
        = dayFrac (opTriple cfgA 28800000 opC1w).2.1 ∧
      iconFormulaEval cfgA.lunchParams
          (unitDivOf (decide (normalizeUnit opC1w.unitRaw = "hour")))
          (dayFrac (opTriple cfgA 28800000 opC1w).1) (displayDur cfgA opC1w)
        = (opTriple cfgA 28800000 opC1w).2.2) := by
  have hld0 : cfgA.lunchDurMin ≠ 0 := by
    norm_num [Config.lunchDurMin, lunchDurClamp, cfgA, max_def, min_def]
  have hlk : cfgA.lunchDurMin * 60000 = ((3600000 : ℤ) : ℚ) := by
    norm_num [Config.lunchDurMin, lunchDurClamp, cfgA, max_def, min_def]
  have hdm : durCalc cfgA opC1w = ((18000000 : ℤ) : ℚ) := by
    simp [durCalc, origDurationMs, parseClamp0, normalizeUnit, opC1w, mkOpMin,
      cfgA, Config.workerCount, validateNumber, max_def, min_def]
    norm_num
  have hbs : opBreakSec opC1w * 1000 = ((0 : ℤ) : ℚ) := by
    simp [opBreakSec, parseClamp0, normalizeUnit, opC1w, mkOpMin, max_def]
  exact ⟨⟨by decide, rfl, rfl, by decide, hld0, hlk, hdm, hbs⟩,
    C1_formula_equivalence cfgA opC1w 28800000 (by decide) rfl rfl (by decide)
      hld0 3600000 18000000 0 hlk hdm hbs (by decide) (by decide) (by decide)
      (by decide) (by decide) (by decide)⟩

end TimeToTable
